import Mathlib

/-!
# Event store: event normalisation and template catalog

A shallow embedding of `pkg/core/messaging/message-listener.go` and
`pkg/core/messaging/template-manager.go`.

* Go strings are immutable byte sequences: `len` counts bytes and `s[i:j]`
  slices bytes, so `GoString` is a list of bytes and a string literal denotes
  its UTF-8 encoding.
* A Go run-time panic (slice out of range, failed type assertion) is the
  result `none`.
* The process-wide `templates` map is passed explicitly as a `Table`.
* The collaborators outside the package (template engine, JSON codec,
  database) are the fields of `Env`; every call made to the storage
  collaborator is recorded in the `Outcome`.
-/

namespace EventStore

/-! ## Strings -/

/-- A Go `string` (and a `[]byte`): a sequence of bytes. -/
abbrev GoString := List UInt8

/-- The bytes denoted by a string literal of the source: its UTF-8 encoding. -/
def lit (s : String) : GoString := s.data.flatMap String.utf8EncodeChar

/-- Go `s[lo:hi]`; panics (`none`) unless `lo ≤ hi ≤ len(s)`. -/
def slice (s : GoString) (lo hi : Nat) : Option GoString :=
  if lo ≤ hi ∧ hi ≤ s.length then some ((s.drop lo).take (hi - lo)) else none

/-! ## Data model -/

/-- Modelled from the spec: `msg.EventLevel` is declared in the package
`github.com/bit-fever/core/msg`, outside this repository; the spec gives the
severity enumeration exactly three values, named here after the constants
`msg.EventLevelInfo`, `msg.EventLevelWarning` and `msg.EventLevelError`. -/
inductive EventLevel where
  | EventLevelInfo
  | EventLevelWarning
  | EventLevelError
  deriving DecidableEq, Repr

/-- A dynamically typed Go value (`interface{}` / `any`) as produced by the YAML
and JSON decoders: a string, a `map[string]interface{}`, or anything else
(nil, numbers, booleans, sequences, maps with non-string keys). A map is the
list of its entries; a Go map holds each key once. -/
inductive GoAny where
  | str (s : GoString)
  | map (entries : List (GoString × GoAny))
  | other

/-- Go `map[string]any`. -/
abbrev GoMap := List (GoString × GoAny)

/-- Go `time.Time`, kept as an uninterpreted instant. -/
abbrev Time := Int

/-- Go `type Template struct` of template-manager.go. -/
structure Template where
  Code : GoString
  Level : GoString
  Title : GoString
  Message : GoString
  deriving DecidableEq, Repr

/-- The `templates` variable, a `map[string]*Template`: an association list
holding each key at most once. -/
abbrev Table := List (GoString × Template)

/-- Go `templates[code]` with the comma-ok form. -/
def Table.get (t : Table) (code : GoString) : Option Template :=
  t.lookup code

/-- Go `templates[code] = v`: replaces the entry of `code` or adds one. -/
def Table.set (t : Table) (code : GoString) (v : Template) : Table :=
  (code, v) :: t.filter (fun e => e.1 != code)

/-- Go `type SentEvent struct` of message-listener.go. -/
structure SentEvent where
  Username : GoString
  Level : EventLevel
  EventDate : Time
  Code : GoString
  Title : GoString
  Message : GoString
  Parameters : GoMap

/-- The fields of `db.Event` that `handleNewEvent` fills in (the struct is
declared in `pkg/db`). -/
structure Event where
  Username : GoString
  EventDate : Time
  Level : EventLevel
  Title : GoString
  Message : GoString
  Parameters : GoString
  deriving DecidableEq, Repr

/-- Go `msg.Message`, the envelope received from the bus. -/
structure Message where
  Source : GoString
  Typ : GoString
  Entity : GoString

/-- Modelled from the spec: the constant `msg.SourceEvent` of
`github.com/bit-fever/core/msg`; the spec gives its value as `"event"`. -/
def SourceEvent : GoString := lit "event"

/-- Modelled from the spec: the constant `msg.TypeCreate` of
`github.com/bit-fever/core/msg`; the spec gives its value as `"create"`. -/
def TypeCreate : GoString := lit "create"

/-- The collaborators of the pipeline and the template table.
* `parseExecute temp parameters` is `template.New("tmp").Parse(temp)` followed by
  `Execute` of html/template: the rendered text, or the text of the error.
* `marshal` is `json.Marshal` (`none`: it returned an error).
* `unmarshal` is `json.Unmarshal` into a `SentEvent` (`none`: an error).
* `addEvent e` is `db.RunInTransaction` around `db.AddEvent`: `true` when it
  returned no error. -/
structure Env where
  templates : Table
  parseExecute : GoString → GoMap → Except GoString GoString
  marshal : GoMap → Option GoString
  unmarshal : GoString → Option SentEvent
  addEvent : Event → Bool

/-- What a handler did: the boolean it returned to the transport and the
records it handed to the storage collaborator, in order. -/
structure Outcome where
  handled : Bool
  stored : List Event
  deriving DecidableEq, Repr

/-! ## message-listener.go -/

/-- Go `convertLevel`. -/
def convertLevel (level : GoString) : EventLevel :=
  if level = lit "INFO" then EventLevel.EventLevelInfo
  else if level = lit "WARN" then EventLevel.EventLevelWarning
  else EventLevel.EventLevelError

/-- Go `getTitleAndMessage`. -/
def getTitleAndMessage (templates : Table) (code : GoString) :
    GoString × GoString × EventLevel :=
  match templates.get code with
  | some t => (t.Title, t.Message, convertLevel t.Level)
  | none => (lit "?" ++ code ++ lit "?", lit "?Code not found?", EventLevel.EventLevelError)

/-- Go `fillTemplate`: parse, then execute; either error is returned. -/
def fillTemplate (env : Env) (temp : GoString) (parameters : GoMap) :
    Except GoString GoString :=
  env.parseExecute temp parameters

/-- Go `fillInParameters`. -/
def fillInParameters (env : Env) (title message : GoString) (parameters : GoMap) :
    GoString × GoString :=
  match fillTemplate env title parameters with
  | .error err => (err, message)
  | .ok title =>
    match fillTemplate env message parameters with
    | .error err => (title, err)
    | .ok message => (title, message)

/-- The clipping step of `handleNewEvent`:
`if len(s) > n { s = s[0:n] }`. -/
def clip (n : Nat) (s : GoString) : Option GoString :=
  if s.length > n then slice s 0 n else some s

/-- Lines 86-90 of `handleNewEvent`: the title, message and level taken from
the event, replaced by the template's when `ev.Code != ""`. -/
def resolveFields (templates : Table) (ev : SentEvent) :
    GoString × GoString × EventLevel :=
  if ev.Code ≠ [] then getTitleAndMessage templates ev.Code
  else (ev.Title, ev.Message, ev.Level)

/-- Go `handleNewEvent`; `none` is a panic. -/
def handleNewEvent (env : Env) (ev : SentEvent) : Option Outcome :=
  let tml := resolveFields env.templates ev
  let tm := fillInParameters env tml.1 tml.2.1 ev.Parameters
  match env.marshal ev.Parameters with
  | none => some ⟨false, []⟩
  | some params =>
    match clip 64 tm.1, clip 512 tm.2 with
    | some title, some message =>
      let dvE : Event :=
        { Username := ev.Username, EventDate := ev.EventDate, Level := tml.2.2,
          Title := title, Message := message, Parameters := params }
      some ⟨env.addEvent dvE, [dvE]⟩
    | _, _ => none

/-- Go `handleEventMessage`; `none` is a panic. -/
def handleEventMessage (env : Env) (m : Message) : Option Outcome :=
  if m.Source = SourceEvent then
    match env.unmarshal m.Entity with
    | none => some ⟨true, []⟩
    | some ev =>
      if m.Typ = TypeCreate then handleNewEvent env ev
      else some ⟨true, []⟩
  else some ⟨true, []⟩

/-! ## template-manager.go -/

/-- The `subPath` of the loop in `buildTemplateMap`: `path + "." + key`,
replaced by `key` when `path == ""`. -/
def subPath (path key : GoString) : GoString :=
  if path = [] then key else path ++ lit "." ++ key

mutual
/-- The call `buildTemplateMap(path, value.(map[string]interface{}))`: the type
assertion on the dynamically typed `value` followed by the body of
`buildTemplateMap`. The table is threaded through; `none` is the panic of a
failed type assertion. -/
def buildTemplateMapAny (path : GoString) (value : GoAny) (templates : Table) :
    Option Table :=
  match value with
  | .map currMap =>
    match currMap.lookup (lit "title") with
    | some title =>
      match currMap.lookup (lit "level"), title, currMap.lookup (lit "message") with
      | some (.str level), .str title, some (.str message) =>
        some (templates.set path
          { Code := path, Level := level, Title := title, Message := message })
      | _, _, _ => none
    | none => rangeLoop path currMap templates
  | _ => none
termination_by structural value
/-- The loop `for key, value := range currMap` of `buildTemplateMap`, over the
entries still to visit. Go visits the entries of a map in an unspecified
order: every order of the list is one possible run. -/
def rangeLoop (path : GoString) (entries : List (GoString × GoAny))
    (templates : Table) : Option Table :=
  match entries with
  | [] => some templates
  | (key, value) :: rest =>
    match buildTemplateMapAny (subPath path key) value templates with
    | some templates => rangeLoop path rest templates
    | none => none
termination_by structural entries
end

/-- Go `buildTemplateMap`. -/
def buildTemplateMap (path : GoString) (currMap : GoMap) (templates : Table) :
    Option Table :=
  buildTemplateMapAny path (.map currMap) templates

/-! ## Statements of the specification and example inputs -/

/-- The specification's truncation rule, read on characters: the first `n`
characters of the text when it has more than `n` characters, the text itself
otherwise. -/
def specTruncate (n : Nat) (s : String) : String :=
  if s.length > n then String.mk (s.data.take n) else s

/-- Whether a text contains the action delimiter `{{` of the template engine. -/
def hasAction : GoString → Bool
  | a :: b :: rest => (a == 123 && b == 123) || hasAction (b :: rest)
  | _ => false

/-- An environment for the examples: an empty template table, a JSON codec
that encodes the empty parameter mapping as `{}` and decodes nothing, a storage
that accepts every record, and a template engine restricted to texts without
the delimiter `{{`, which it returns as they are (as html/template does when
the text has no `<` either). -/
def exampleEnv : Env where
  templates := []
  parseExecute := fun temp _ =>
    if hasAction temp then .error (lit "template: tmp: not a plain text") else .ok temp
  marshal := fun p => match p with
    | [] => some (lit "{}")
    | _ => none
  unmarshal := fun _ => none
  addEvent := fun _ => true

/-- An event without a code: the inline example of the specification. -/
def inlineEvent : SentEvent where
  Username := lit "ann"
  Level := EventLevel.EventLevelInfo
  EventDate := 0
  Code := []
  Title := lit "Hi"
  Message := lit "There"
  Parameters := []

/-- An event whose code has 63 bytes and is in no table. -/
def longCodeEvent : SentEvent where
  Username := lit "ann"
  Level := EventLevel.EventLevelInfo
  EventDate := 0
  Code := lit (String.mk (List.replicate 63 'a'))
  Title := []
  Message := []
  Parameters := []

/-- A title of 33 characters, each of two bytes in UTF-8. -/
def accentTitle : String := String.mk (List.replicate 33 'é')

/-- An event without a code whose title is `accentTitle`. -/
def accentEvent : SentEvent where
  Username := lit "ann"
  Level := EventLevel.EventLevelInfo
  EventDate := 0
  Code := []
  Title := lit accentTitle
  Message := lit "m"
  Parameters := []

/-- The example environment with a JSON decoder that reads every body as
`inlineEvent`. -/
def decodingEnv : Env := { exampleEnv with unmarshal := fun _ => some inlineEvent }

/-- The example environment with a storage that rejects every record. -/
def failingStoreEnv : Env := { exampleEnv with addEvent := fun _ => false }

/-- An event whose parameters the example codec cannot serialise. -/
def unserialisableEvent : SentEvent :=
  { inlineEvent with Parameters := [(lit "k", GoAny.other)] }

mutual
/-- The leaves below a value of the catalog, each with the keys that lead to
it from that value, in the order of the walk: a map with a `title` key is a
leaf, any other map is a group whose entries are searched in turn. -/
def leavesAny (value : GoAny) : List (List GoString × GoMap) :=
  match value with
  | .map currMap =>
    match currMap.lookup (lit "title") with
    | some _ => [([], currMap)]
    | none => leavesLoop currMap
  | _ => []
termination_by structural value
/-- The leaves below the entries of a group. -/
def leavesLoop (entries : List (GoString × GoAny)) : List (List GoString × GoMap) :=
  match entries with
  | [] => []
  | (key, value) :: rest =>
    (leavesAny value).map (fun l => (key :: l.1, l.2)) ++ leavesLoop rest
termination_by structural entries
end

/-- The leaves of a catalog with their key paths from the root. -/
def leaves (catalog : GoMap) : List (List GoString × GoMap) :=
  leavesAny (.map catalog)

/-- The key paths of the leaves of a catalog. -/
def leafPaths (catalog : GoMap) : List (List GoString) :=
  (leaves catalog).map Prod.fst

/-- The separator followed by each key, one after the other:
`"." + k1 + "." + k2 + ...`. -/
def dotted (ks : List GoString) : GoString :=
  ks.flatMap (fun k => lit "." ++ k)

/-- The code `k1 + "." + ... + "." + kn` of the key path `k1, ..., kn`, without
a separator before the first segment. -/
def dottedCode : List GoString → GoString
  | [] => []
  | k :: ks => k ++ dotted ks

/-- The byte of the separator `.`. -/
def dot : UInt8 := 46

/-- No key of the path contains the separator. -/
def DotFree (ks : List GoString) : Prop := ∀ k ∈ ks, dot ∉ k

/-- The first key of the path, when there is one, is not empty. -/
def HeadNonEmpty (ks : List GoString) : Prop := ks.head? ≠ some []

instance (ks : List GoString) : Decidable (DotFree ks) := by
  unfold DotFree
  infer_instance

instance (ks : List GoString) : Decidable (HeadNonEmpty ks) := by
  unfold HeadNonEmpty
  infer_instance

/-- The path reached from `path` through the keys `ks` by the loop of
`buildTemplateMap`. -/
def pathAfter (path : GoString) (ks : List GoString) : GoString :=
  ks.foldl subPath path

/-- The string behind a dynamically typed value, empty when it is not one. -/
def stringOf : Option GoAny → GoString
  | some (.str s) => s
  | _ => []

/-- The template that a leaf registers under `code`. -/
def leafTemplate (code : GoString) (leaf : GoMap) : Template :=
  { Code := code, Level := stringOf (leaf.lookup (lit "level")),
    Title := stringOf (leaf.lookup (lit "title")),
    Message := stringOf (leaf.lookup (lit "message")) }

/-- The title, message and level of a leaf are strings. -/
def StringFields (leaf : GoMap) : Prop :=
  ∃ title message level, leaf.lookup (lit "title") = some (.str title) ∧
    leaf.lookup (lit "message") = some (.str message) ∧
    leaf.lookup (lit "level") = some (.str level)

/-- A leaf with title `T`, message `M` and level `INFO`. -/
def leafT : GoAny :=
  .map [(lit "title", .str (lit "T")), (lit "message", .str (lit "M")),
    (lit "level", .str (lit "INFO"))]

/-- A leaf with title `U`, message `N` and level `WARN`. -/
def leafU : GoAny :=
  .map [(lit "title", .str (lit "U")), (lit "message", .str (lit "N")),
    (lit "level", .str (lit "WARN"))]

/-- A catalog with a key that contains the separator:
`{"a.b": leafT, "a": {"b": leafU}}`, the entry `a.b` visited first. -/
def dottedKeyCatalog : GoMap :=
  [(lit "a.b", leafT), (lit "a", .map [(lit "b", leafU)])]

/-- The catalog `dottedKeyCatalog`, the entry `a` visited first. -/
def dottedKeyCatalogRev : GoMap :=
  [(lit "a", .map [(lit "b", leafU)]), (lit "a.b", leafT)]

/-- A catalog with an empty key at the root: `{"": {"a": leafT}}`. -/
def emptyKeyCatalog : GoMap :=
  [(lit "", .map [(lit "a", leafT)])]

/-- A catalog with an empty key at the root and two leaves:
`{"": {"a": leafT}, "a": leafU}`. -/
def emptyKeyCollisionCatalog : GoMap :=
  [(lit "", .map [(lit "a", leafT)]), (lit "a", leafU)]

/-- A catalog of two groups: `{"billing": {"invoice": {"overdue": leafT}},
"login": leafU}`. -/
def sampleCatalog : GoMap :=
  [(lit "billing", .map [(lit "invoice", .map [(lit "overdue", leafT)])]),
   (lit "login", leafU)]

/-- The registration of one leaf found below `path`: the assignment
`templates[code] = &Template{...}` with the code reached through its keys. -/
def register (path : GoString) (t : Table) (l : List GoString × GoMap) : Table :=
  t.set (pathAfter path l.1) (leafTemplate (pathAfter path l.1) l.2)

/-- The table of `sampleCatalog`, its entries visited in the order written. -/
def sampleTable : Table :=
  [(lit "login",
      { Code := lit "login", Level := lit "WARN", Title := lit "U", Message := lit "N" }),
   (lit "billing.invoice.overdue",
      { Code := lit "billing.invoice.overdue", Level := lit "INFO", Title := lit "T",
        Message := lit "M" })]

/-- The example environment with the table of `sampleCatalog`. -/
def catalogEnv : Env := { exampleEnv with templates := sampleTable }

/-! ## The template engine on plain references

`fillTemplate` hands the text to the Go standard library (`html/template`, by
the import of message-listener.go), which is not part of the repository. The
definitions below follow the library on a fragment only: texts without `<`,
and actions of the two forms `{{.key}}` and `{{name}}` or `{{name.field...}}`
with a name that is no function. Outside the fragment the result is `none`
and nothing is stated about the library. -/

/-- The table `htmlReplacementTable` of html/template (html.go): the text that
replaces a byte of a value inserted in a text context. -/
def htmlReplacement (b : UInt8) : GoString :=
  if b = 0 then [0xEF, 0xBF, 0xBD]
  else if b = 34 then lit "&#34;"
  else if b = 38 then lit "&amp;"
  else if b = 39 then lit "&#39;"
  else if b = 43 then lit "&#43;"
  else if b = 60 then lit "&lt;"
  else if b = 62 then lit "&gt;"
  else [b]

/-- The escaper `htmlEscaper` of html/template applied to a plain string. -/
def htmlEscaper (s : GoString) : GoString :=
  s.flatMap htmlReplacement

/-- The text before the first occurrence of the doubled byte `d` and the text
after it; `none` when the doubled byte does not occur. -/
def cutDelim (d : UInt8) : GoString → Option (GoString × GoString)
  | [] => none
  | [_] => none
  | a :: b :: rest =>
    if a = d ∧ b = d then some ([], rest)
    else (cutDelim d (b :: rest)).map (fun r => (a :: r.1, r.2))

/-- The lexer's `isAlphaNumeric` of text/template on ASCII bytes: an
underscore, a letter or a digit. -/
def isAlphaNumeric (b : UInt8) : Bool :=
  b == 95 || (48 ≤ b && b ≤ 57) || (65 ≤ b && b ≤ 90) || (97 ≤ b && b ≤ 122)

/-- An ASCII identifier: alphanumeric bytes, the first of them no digit. -/
def isIdentifier (s : GoString) : Bool :=
  match s with
  | [] => false
  | c :: _ => !(48 ≤ c && c ≤ 57) && s.all isAlphaNumeric

/-- The names that the lexer or the function maps of text/template and
html/template know: keywords, boolean constants and built-in functions. -/
def predefinedNames : List GoString :=
  ["block", "break", "continue", "define", "else", "end", "if", "range", "nil",
   "template", "with", "true", "false", "and", "call", "html", "index", "slice",
   "js", "len", "not", "or", "print", "printf", "println", "urlquery", "eq", "ge",
   "gt", "le", "lt", "ne"].map lit

/-- The actions of the fragment. -/
inductive Action where
  | field (key : GoString)
  | undefinedFunction (name : GoString)
  deriving DecidableEq, Repr

/-- The action written between `{{` and `}}`: `.key` is the field `key` of the
data; an identifier that is no predefined name, alone or followed by `.`, is a
call of an undefined function; `none` for any other text. -/
def classify (body : GoString) : Option Action :=
  match body with
  | 46 :: key => if isIdentifier key then some (.field key) else none
  | _ =>
    let name := body.takeWhile isAlphaNumeric
    let rest := body.dropWhile isAlphaNumeric
    if isIdentifier name ∧ (rest = [] ∨ rest.head? = some 46) ∧ name ∉ predefinedNames
        ∧ name.head? ≠ some 95 then
      some (.undefinedFunction name)
    else none

/-- The nodes of a parsed template of the fragment. -/
inductive Node where
  | text (s : GoString)
  | field (key : GoString)
  deriving DecidableEq, Repr

/-- The number of line ends in a text. -/
def newlines (s : GoString) : Nat := s.count 10

/-- The message of the parse error for a function that is not defined, as
text/template formats it for the template named `tmp`. -/
def undefinedFunctionError (line : Nat) (name : GoString) : GoString :=
  lit "template: tmp:" ++ lit (toString line) ++ lit ": function \"" ++ name
    ++ lit "\" not defined"

/-- `Parse` on the fragment, from the text `s` that starts on line `line`:
the nodes, or the message of the first parse error; `none` outside the
fragment. Each round consumes an action, so `len(s) + 1` rounds suffice. -/
def parseNodes : Nat → Nat → GoString → Option (Except GoString (List Node))
  | 0, _, _ => none
  | fuel + 1, line, s =>
    match cutDelim 123 s with
    | none => some (.ok [Node.text s])
    | some (text, rest) =>
      match cutDelim 125 rest with
      | none => none
      | some (body, rest') =>
        match classify body with
        | none => none
        | some (.undefinedFunction name) =>
          some (.error (undefinedFunctionError (line + newlines text) name))
        | some (.field key) =>
          match parseNodes fuel (line + newlines text) rest' with
          | some (.ok nodes) => some (.ok (Node.text text :: Node.field key :: nodes))
          | other => other

/-- `Execute` on the nodes of the fragment against the data: a text without
`<` is written as it is, a field with a string value is written through
`htmlEscaper`; `none` outside the fragment. -/
def execNodes (data : GoMap) : List Node → Option GoString
  | [] => some []
  | Node.text s :: rest =>
    if (60 : UInt8) ∈ s then none else (execNodes data rest).map (fun out => s ++ out)
  | Node.field key :: rest =>
    match data.lookup key with
    | some (.str v) => (execNodes data rest).map (fun out => htmlEscaper v ++ out)
    | _ => none

/-- `template.New("tmp").Parse(temp)` followed by `Execute` with the data, on
the fragment: the rendered text or the text of the error; `none` outside the
fragment. -/
def htmlTemplate (temp : GoString) (data : GoMap) : Option (Except GoString GoString) :=
  match parseNodes (temp.length + 1) 1 temp with
  | none => none
  | some (.error err) => some (.error err)
  | some (.ok nodes) => (execNodes data nodes).map Except.ok

/-- The engine of the environment is html/template: it agrees with the
fragment wherever the fragment is defined. -/
def HtmlTemplateEngine (env : Env) : Prop :=
  ∀ temp data r, htmlTemplate temp data = some r → env.parseExecute temp data = r

/-- The example environment with html/template on the fragment as its engine;
a text outside the fragment gets an error text of the example's own. -/
def goEnv : Env :=
  { exampleEnv with
    parseExecute := fun temp data =>
      (htmlTemplate temp data).getD (.error (lit "template: tmp: outside the fragment")) }

/-- The parameter mapping `{name: "Ann"}`. -/
def annParameters : GoMap := [(lit "name", .str (lit "Ann"))]

/-- A text of the fragment between the actions: neither `{` nor `<` in it. -/
def PlainText (s : GoString) : Prop := (123 : UInt8) ∉ s ∧ (60 : UInt8) ∉ s

instance (s : GoString) : Decidable (PlainText s) := by
  unfold PlainText
  infer_instance

/-! ## Well-formed catalogs and orders of visit -/

/-- The dynamically typed value is a string. -/
def isString : Option GoAny → Bool
  | some (.str _) => true
  | _ => false

mutual
/-- The catalogs that the specification calls well formed: a node with a
`title` key has a string title, message and level; any other node is a group
all of whose values are well-formed nodes in turn. A value that is no map is
not a node. -/
def wellFormedAny (value : GoAny) : Bool :=
  match value with
  | .map currMap =>
    match currMap.lookup (lit "title") with
    | some title =>
      isString (some title) && isString (currMap.lookup (lit "message"))
        && isString (currMap.lookup (lit "level"))
    | none => wellFormedLoop currMap
  | _ => false
termination_by structural value
/-- Every value of the entries is a well-formed node. -/
def wellFormedLoop (entries : List (GoString × GoAny)) : Bool :=
  match entries with
  | [] => true
  | (_, value) :: rest => wellFormedAny value && wellFormedLoop rest
termination_by structural entries
end

mutual
/-- The value `value'` is `value` with the entries of its groups, at every
depth, listed in another order: the same catalog with another order of visit.
A leaf is not visited inside and stays as it is. -/
def Reordered (value value' : GoAny) : Prop :=
  match value with
  | .map currMap =>
    match currMap.lookup (lit "title") with
    | some _ => value' = .map currMap
    | none =>
      ∃ entries entries', ReorderedEntries currMap entries ∧ entries.Perm entries'
        ∧ value' = .map entries'
  | .str s => value' = .str s
  | .other => value' = .other
termination_by structural value
/-- The entries `entries'` are `entries` with each value reordered inside. -/
def ReorderedEntries (entries entries' : List (GoString × GoAny)) : Prop :=
  match entries with
  | [] => entries' = []
  | (key, value) :: rest =>
    ∃ value' rest', Reordered value value' ∧ ReorderedEntries rest rest'
      ∧ entries' = (key, value') :: rest'
termination_by structural entries
end

/-- The catalog `sampleCatalog` in another order of visit: `login` first, and
the groups below `billing` as they were. -/
def sampleCatalogRev : GoMap :=
  [(lit "login", leafU),
   (lit "billing", .map [(lit "invoice", .map [(lit "overdue", leafT)])])]

/-- A catalog of one group with a value that is no group: `{"a": {"b": 5}}`. -/
def scalarChildCatalog : GoMap :=
  [(lit "a", .map [(lit "b", .other)])]

/-- A catalog with a leaf without a level: `{"a": {title: "T", message: "M"}}`. -/
def noLevelCatalog : GoMap :=
  [(lit "a", .map [(lit "title", .str (lit "T")), (lit "message", .str (lit "M"))])]

/-- An event whose code is an action of the template engine, in no table. -/
def actionCodeEvent : SentEvent :=
  { inlineEvent with Code := lit "{{x}}" }

/-! # Theorems -/

/-! ## Lemmas on the pipeline -/

theorem lit_question_length : (lit "?").length = 1 := by decide

theorem slice_zero (s : GoString) (n : Nat) (h : n ≤ s.length) :
    slice s 0 n = some (s.take n) := by
  simp [slice, h]

/-- The clipping step never panics and keeps the first `n` bytes. -/
theorem clip_eq_take (n : Nat) (s : GoString) : clip n s = some (s.take n) := by
  unfold clip
  split
  · exact slice_zero s n (by omega)
  · rw [List.take_of_length_le (by omega)]

theorem take_eq_ite (n : Nat) (s : GoString) :
    s.take n = if s.length > n then s.take n else s := by
  split
  · rfl
  · exact List.take_of_length_le (by omega)

/-- Without serialised parameters nothing is stored. -/
theorem handleNewEvent_marshal_none (env : Env) (ev : SentEvent)
    (h : env.marshal ev.Parameters = none) :
    handleNewEvent env ev = some ⟨false, []⟩ := by
  simp [handleNewEvent, h]

/-- With serialised parameters exactly one record is handed to the storage. -/
theorem handleNewEvent_marshal_some (env : Env) (ev : SentEvent) (params : GoString)
    (h : env.marshal ev.Parameters = some params) :
    handleNewEvent env ev =
      some ⟨env.addEvent
              { Username := ev.Username, EventDate := ev.EventDate,
                Level := (resolveFields env.templates ev).2.2,
                Title := (fillInParameters env (resolveFields env.templates ev).1
                  (resolveFields env.templates ev).2.1 ev.Parameters).1.take 64,
                Message := (fillInParameters env (resolveFields env.templates ev).1
                  (resolveFields env.templates ev).2.1 ev.Parameters).2.take 512,
                Parameters := params },
            [{ Username := ev.Username, EventDate := ev.EventDate,
               Level := (resolveFields env.templates ev).2.2,
               Title := (fillInParameters env (resolveFields env.templates ev).1
                 (resolveFields env.templates ev).2.1 ev.Parameters).1.take 64,
               Message := (fillInParameters env (resolveFields env.templates ev).1
                 (resolveFields env.templates ev).2.1 ev.Parameters).2.take 512,
               Parameters := params }]⟩ := by
  simp [handleNewEvent, h, clip_eq_take]

theorem resolveFields_code (templates : Table) (ev : SentEvent) (h : ev.Code ≠ []) :
    resolveFields templates ev = getTitleAndMessage templates ev.Code := by
  simp [resolveFields, h]

theorem resolveFields_inline (templates : Table) (ev : SentEvent) (h : ev.Code = []) :
    resolveFields templates ev = (ev.Title, ev.Message, ev.Level) := by
  simp [resolveFields, h]

theorem getTitleAndMessage_absent (templates : Table) (code : GoString)
    (h : templates.get code = none) :
    getTitleAndMessage templates code =
      (lit "?" ++ code ++ lit "?", lit "?Code not found?", EventLevel.EventLevelError) := by
  simp [getTitleAndMessage, h]

theorem fillInParameters_ok (env : Env) (title message t m : GoString) (p : GoMap)
    (ht : env.parseExecute title p = .ok t) (hm : env.parseExecute message p = .ok m) :
    fillInParameters env title message p = (t, m) := by
  simp [fillInParameters, fillTemplate, ht, hm]

/-! ## C2: level names -/

/-- C2: `convertLevel` maps `"INFO"` to INFO and `"WARN"` to WARNING and every
other string to ERROR, among them `""`, `"warn"`, `"Info"` and `"CRITICAL"`;
the match is exact. -/
theorem C2_convertLevel :
    convertLevel (lit "INFO") = EventLevel.EventLevelInfo ∧
    convertLevel (lit "WARN") = EventLevel.EventLevelWarning ∧
    (∀ s : GoString, s ≠ lit "INFO" → s ≠ lit "WARN" →
      convertLevel s = EventLevel.EventLevelError) ∧
    (∀ s : GoString, convertLevel s = EventLevel.EventLevelInfo ↔ s = lit "INFO") ∧
    (∀ s : GoString, convertLevel s = EventLevel.EventLevelWarning ↔ s = lit "WARN") ∧
    convertLevel (lit "") = EventLevel.EventLevelError ∧
    convertLevel (lit "warn") = EventLevel.EventLevelError ∧
    convertLevel (lit "Info") = EventLevel.EventLevelError ∧
    convertLevel (lit "CRITICAL") = EventLevel.EventLevelError := by
  have hne : lit "WARN" ≠ lit "INFO" := by decide
  refine ⟨by decide, by decide, ?_, ?_, ?_, by decide, by decide, by decide, by decide⟩
  · intro s h1 h2
    simp [convertLevel, h1, h2]
  · intro s
    unfold convertLevel
    constructor
    · intro h
      by_contra hs
      rw [if_neg hs] at h
      split at h <;> exact absurd h (by decide)
    · intro h
      rw [if_pos h]
  · intro s
    unfold convertLevel
    constructor
    · intro h
      split at h
      · exact absurd h (by decide)
      · by_contra hs
        rw [if_neg hs] at h
        exact absurd h (by decide)
    · intro h
      rw [h, if_neg hne, if_pos rfl]

/-- Witness of C2: the lower-case `"warn"` is neither name and maps to ERROR. -/
theorem C2_convertLevel_witness :
    lit "warn" ≠ lit "INFO" ∧ lit "warn" ≠ lit "WARN" ∧
    convertLevel (lit "warn") = EventLevel.EventLevelError :=
  ⟨by decide, by decide, C2_convertLevel.2.2.1 (lit "warn") (by decide) (by decide)⟩

/-! ## C3: truncation -/

set_option maxRecDepth 8000 in
/-- C3 (as stated, refuted): the title of `accentEvent` renders to itself and
has 33 characters, so the specification's rule on characters keeps it whole;
the title handed to storage is another one, its first 64 of 66 bytes. -/
theorem C3_counterexample :
    fillInParameters exampleEnv accentEvent.Title accentEvent.Message
        accentEvent.Parameters = (lit accentTitle, lit "m") ∧
    accentTitle.length = 33 ∧ (lit accentTitle).length = 66 ∧
    (handleNewEvent exampleEnv accentEvent).map
        (fun o => o.stored.map (fun e => e.Title))
      = some [(lit accentTitle).take 64] ∧
    (handleNewEvent exampleEnv accentEvent).map
        (fun o => o.stored.map (fun e => e.Title))
      ≠ some [lit (specTruncate 64 accentTitle)] := by
  decide

/-- C3 (amended): for every rendered title `t` and rendered message `m` (the
result of `fillInParameters` on the resolved fields), when the parameters
serialise the one record handed to storage has as Title the first 64 bytes of
`t` when `t` has more than 64 bytes and `t` itself otherwise, and as Message
the first 512 bytes of `m` when `m` has more than 512 bytes and `m` itself
otherwise; each truncation depends on its own field only. -/
theorem C3_truncation_bytes (env : Env) (ev : SentEvent) (params t m : GoString)
    (hmarshal : env.marshal ev.Parameters = some params)
    (hrender : fillInParameters env (resolveFields env.templates ev).1
      (resolveFields env.templates ev).2.1 ev.Parameters = (t, m)) :
    handleNewEvent env ev =
      some ⟨env.addEvent
              { Username := ev.Username, EventDate := ev.EventDate,
                Level := (resolveFields env.templates ev).2.2,
                Title := if t.length > 64 then t.take 64 else t,
                Message := if m.length > 512 then m.take 512 else m,
                Parameters := params },
            [{ Username := ev.Username, EventDate := ev.EventDate,
               Level := (resolveFields env.templates ev).2.2,
               Title := if t.length > 64 then t.take 64 else t,
               Message := if m.length > 512 then m.take 512 else m,
               Parameters := params }]⟩ := by
  rw [handleNewEvent_marshal_some env ev params hmarshal, hrender]
  simp only [← take_eq_ite]

set_option maxRecDepth 8000 in
/-- Witness of C3 (amended): the 66-byte title of `accentEvent` is stored cut
to 64 bytes, its one-byte message whole. -/
theorem C3_truncation_bytes_witness :
    handleNewEvent exampleEnv accentEvent =
      some ⟨true,
        [{ Username := lit "ann", EventDate := 0, Level := EventLevel.EventLevelInfo,
           Title := lit (String.mk (List.replicate 32 'é')), Message := lit "m",
           Parameters := lit "{}" }]⟩ :=
  (C3_truncation_bytes exampleEnv accentEvent (lit "{}") (lit accentTitle) (lit "m")
    (by decide) (by decide)).trans (by decide)

/-! ## C5: the code takes precedence -/

/-- C5: two events with the same non-empty Code and the same Parameters,
Username and EventDate get the same outcome from `handleNewEvent`, whatever
their inline Title, Message and Level. -/
theorem C5_code_precedence (env : Env) (ev1 ev2 : SentEvent)
    (hcode : ev1.Code ≠ []) (hsame : ev1.Code = ev2.Code)
    (hparams : ev1.Parameters = ev2.Parameters)
    (huser : ev1.Username = ev2.Username) (hdate : ev1.EventDate = ev2.EventDate) :
    handleNewEvent env ev1 = handleNewEvent env ev2 := by
  have hcode2 : ev2.Code ≠ [] := hsame ▸ hcode
  simp only [handleNewEvent, resolveFields_code env.templates ev1 hcode,
    resolveFields_code env.templates ev2 hcode2, hsame, hparams, huser, hdate]

set_option maxRecDepth 8000 in
/-- Witness of C5: two events with the code `login` of `sampleTable` and
different inline fields are both stored with the template's title, message
and level. -/
theorem C5_code_precedence_witness :
    handleNewEvent catalogEnv
        { Username := lit "ann", Level := EventLevel.EventLevelInfo, EventDate := 7,
          Code := lit "login", Title := lit "t", Message := lit "m", Parameters := [] }
      = some ⟨true,
          [{ Username := lit "ann", EventDate := 7, Level := EventLevel.EventLevelWarning,
             Title := lit "U", Message := lit "N", Parameters := lit "{}" }]⟩ ∧
    handleNewEvent catalogEnv
        { Username := lit "ann", Level := EventLevel.EventLevelError, EventDate := 7,
          Code := lit "login", Title := lit "other", Message := [], Parameters := [] }
      = some ⟨true,
          [{ Username := lit "ann", EventDate := 7, Level := EventLevel.EventLevelWarning,
             Title := lit "U", Message := lit "N", Parameters := lit "{}" }]⟩ :=
  ⟨by decide,
    (C5_code_precedence catalogEnv
      { Username := lit "ann", Level := EventLevel.EventLevelInfo, EventDate := 7,
        Code := lit "login", Title := lit "t", Message := lit "m", Parameters := [] }
      { Username := lit "ann", Level := EventLevel.EventLevelError, EventDate := 7,
        Code := lit "login", Title := lit "other", Message := [], Parameters := [] }
      (by decide) rfl rfl rfl rfl).symm.trans (by decide)⟩

/-! ## C6 and C7: the dispatcher -/

/-- C6: a message (any source, any type) whose Entity does not deserialise
makes `handleEventMessage` return true without any call to the storage. -/
theorem C6_bad_body_dropped (env : Env) (m : Message)
    (hbody : env.unmarshal m.Entity = none) :
    handleEventMessage env m = some ⟨true, []⟩ := by
  unfold handleEventMessage
  split
  · simp [hbody]
  · rfl

/-- Witness of C6: a create-event message with an unreadable body. -/
theorem C6_bad_body_dropped_witness :
    handleEventMessage exampleEnv
        { Source := lit "event", Typ := lit "create", Entity := lit "\x7b" }
      = some ⟨true, []⟩ :=
  C6_bad_body_dropped exampleEnv _ rfl

/-- C7: a message whose source and type are not `"event"` and `"create"`
together makes `handleEventMessage` return true without any call to the
storage, also when the source is `"event"` and the body is well formed; and a
message with that source and type and a well-formed body is given to
`handleNewEvent`. -/
theorem C7_other_source_or_type (env : Env) (m : Message) :
    (¬ (m.Source = SourceEvent ∧ m.Typ = TypeCreate) →
      handleEventMessage env m = some ⟨true, []⟩) ∧
    (∀ ev, m.Source = SourceEvent → m.Typ = TypeCreate →
      env.unmarshal m.Entity = some ev →
      handleEventMessage env m = handleNewEvent env ev) := by
  constructor
  · intro h
    unfold handleEventMessage
    split
    · next hs =>
      have ht : m.Typ ≠ TypeCreate := fun ht => h ⟨hs, ht⟩
      cases hu : env.unmarshal m.Entity <;> simp [ht]
    · rfl
  · intro ev hs ht hu
    simp [handleEventMessage, hs, ht, hu]

/-- Witness of C7: a message of source `"event"` and type `"update"` with a
well-formed body is acknowledged and nothing is stored. -/
theorem C7_other_source_or_type_witness :
    decodingEnv.unmarshal (lit "{}") = some inlineEvent ∧
    handleEventMessage decodingEnv
        { Source := lit "event", Typ := lit "update", Entity := lit "{}" }
      = some ⟨true, []⟩ :=
  ⟨rfl, (C7_other_source_or_type decodingEnv
    { Source := lit "event", Typ := lit "update", Entity := lit "{}" }).1 (by decide)⟩

/-! ## C8: the value returned by `handleNewEvent` -/

/-- C8: `handleNewEvent` returns, and it returns true exactly when the
parameters serialise and the storage accepts the record it is handed. When
the serialisation fails it returns false and the storage is not called; when
it succeeds the storage is called exactly once, with a record that carries the
serialised parameters, and the value returned is the storage's verdict, false
on a storage failure. -/
theorem C8_handled_iff (env : Env) (ev : SentEvent) :
    ∃ o, handleNewEvent env ev = some o ∧
      (o.handled = true ↔
        ∃ params r, env.marshal ev.Parameters = some params ∧ o.stored = [r] ∧
          env.addEvent r = true) ∧
      (env.marshal ev.Parameters = none → o = ⟨false, []⟩) ∧
      (∀ params, env.marshal ev.Parameters = some params →
        ∃ r, o.stored = [r] ∧ r.Parameters = params ∧ o.handled = env.addEvent r ∧
          (env.addEvent r = false → o.handled = false)) := by
  cases hm : env.marshal ev.Parameters with
  | none =>
    exact ⟨_, handleNewEvent_marshal_none env ev hm, by simp, fun _ => rfl, by simp⟩
  | some params =>
    refine ⟨_, handleNewEvent_marshal_some env ev params hm, ?_, by simp, ?_⟩
    · constructor
      · intro h
        exact ⟨params, _, rfl, rfl, h⟩
      · rintro ⟨p, r, -, hr, hadd⟩
        simp only [List.cons.injEq, and_true] at hr
        rw [hr]
        exact hadd
    · intro p hp
      cases hp
      exact ⟨_, rfl, rfl, rfl, fun h => h⟩

set_option maxRecDepth 8000 in
/-- Witness of C8: parameters that do not serialise give false without a call
to the storage; a storage failure gives false after one call. -/
theorem C8_handled_iff_witness :
    exampleEnv.marshal unserialisableEvent.Parameters = none ∧
    handleNewEvent exampleEnv unserialisableEvent = some ⟨false, []⟩ ∧
    handleNewEvent failingStoreEnv inlineEvent =
      some ⟨false,
        [{ Username := lit "ann", EventDate := 0, Level := EventLevel.EventLevelInfo,
           Title := lit "Hi", Message := lit "There", Parameters := lit "{}" }]⟩ :=
  ⟨rfl,
    (C8_handled_iff exampleEnv unserialisableEvent).elim
      (fun _ h => h.1.trans (congrArg some (h.2.2.1 rfl))),
    by decide⟩

/-! ## Lemmas on the template table -/

theorem lit_dot : lit "." = [dot] := by decide

theorem Table.set_fresh (t : Table) (c : GoString) (v : Template)
    (h : c ∉ t.map Prod.fst) : t.set c v = (c, v) :: t := by
  unfold Table.set
  congr 1
  rw [List.filter_eq_self]
  intro e he
  simp only [bne_iff_ne, ne_eq]
  intro hc
  exact h (List.mem_map.mpr ⟨e, he, hc⟩)

theorem lookup_of_mem_nodup (l : Table) (c : GoString) (v : Template)
    (hnd : (l.map Prod.fst).Nodup) (hmem : (c, v) ∈ l) : l.lookup c = some v := by
  induction l with
  | nil => cases hmem
  | cons e rest ih =>
    obtain ⟨k, w⟩ := e
    simp only [List.map_cons, List.nodup_cons] at hnd
    rcases List.mem_cons.mp hmem with h | h
    · cases h
      simp [List.lookup]
    · have hne : c ≠ k := by
        intro hck
        exact hnd.1 (List.mem_map.mpr ⟨(c, v), h, hck⟩)
      rw [List.lookup_cons, beq_false_of_ne hne]
      exact ih hnd.2 h

theorem lookup_none_of_not_mem (l : Table) (c : GoString)
    (h : c ∉ l.map Prod.fst) : l.lookup c = none := by
  induction l with
  | nil => rfl
  | cons e rest ih =>
    obtain ⟨k, w⟩ := e
    simp only [List.map_cons, List.mem_cons, not_or] at h
    rw [List.lookup_cons, beq_false_of_ne h.1]
    exact ih h.2

/-- Registering leaves under pairwise different codes that are not yet in the
table puts one entry per leaf in front of it. -/
theorem foldl_register_fresh (path : GoString) (ls : List (List GoString × GoMap))
    (t : Table)
    (hnd : (ls.map (fun l => pathAfter path l.1)).Nodup)
    (hdisj : ∀ l ∈ ls, pathAfter path l.1 ∉ t.map Prod.fst) :
    ls.foldl (register path) t =
      (ls.map (fun l => (pathAfter path l.1, leafTemplate (pathAfter path l.1) l.2))).reverse
        ++ t := by
  induction ls generalizing t with
  | nil => rfl
  | cons l rest ih =>
    simp only [List.map_cons, List.nodup_cons] at hnd
    simp only [List.foldl_cons, List.map_cons, List.reverse_cons, List.append_assoc,
      List.singleton_append]
    have hreg : register path t l
        = (pathAfter path l.1, leafTemplate (pathAfter path l.1) l.2) :: t :=
      Table.set_fresh t _ _ (hdisj l (List.mem_cons_self _ _))
    rw [ih (register path t l) hnd.2, hreg]
    intro l' hl'
    rw [hreg]
    simp only [List.map_cons, List.mem_cons, not_or]
    constructor
    · intro heq
      exact hnd.1 (List.mem_map.mpr ⟨l', hl', heq⟩)
    · exact hdisj l' (List.mem_cons_of_mem _ hl')

/-! ## Lemmas on paths and codes -/

theorem pathAfter_cons (path key : GoString) (ks : List GoString) :
    pathAfter path (key :: ks) = pathAfter (subPath path key) ks := rfl

theorem dotted_cons (k : GoString) (ks : List GoString) :
    dotted (k :: ks) = dot :: (k ++ dotted ks) := by
  simp [dotted, List.flatMap_cons, lit_dot]

theorem pathAfter_of_ne_nil (path : GoString) (ks : List GoString) (h : path ≠ []) :
    pathAfter path ks = path ++ dotted ks := by
  induction ks generalizing path with
  | nil => simp [pathAfter, dotted]
  | cons k ks ih =>
    rw [pathAfter_cons, dotted_cons]
    have hsub : subPath path k = path ++ lit "." ++ k := by simp [subPath, h]
    rw [hsub, ih _ (by simp [h]), lit_dot]
    simp

/-- From the root, the path accumulated by the walk is the dotted code of the
keys, provided the first key is not empty. -/
theorem pathAfter_root (ks : List GoString) (h : HeadNonEmpty ks) :
    pathAfter [] ks = dottedCode ks := by
  cases ks with
  | nil => rfl
  | cons k ks =>
    have hk : k ≠ [] := fun hk => h (by rw [hk]; rfl)
    rw [pathAfter_cons]
    have hsub : subPath [] k = k := by simp [subPath]
    rw [hsub, pathAfter_of_ne_nil k ks hk]
    rfl

/-- Two texts made of a key without separator followed by nothing or by a
separator are equal only when the keys and the remainders are. -/
theorem key_split (a a' x x' : GoString) (ha : dot ∉ a) (ha' : dot ∉ a')
    (hx : x = [] ∨ ∃ y, x = dot :: y) (hx' : x' = [] ∨ ∃ y, x' = dot :: y)
    (h : a ++ x = a' ++ x') : a = a' ∧ x = x' := by
  induction a generalizing a' with
  | nil =>
    cases a' with
    | nil => exact ⟨rfl, by simpa using h⟩
    | cons c cs =>
      exfalso
      simp only [List.nil_append, List.cons_append] at h
      rcases hx with hx | ⟨y, hx⟩
      · rw [hx] at h
        cases h
      · rw [hx] at h
        injection h with h1 h2
        exact ha' (h1 ▸ List.mem_cons_self _ _)
  | cons b bs ih =>
    cases a' with
    | nil =>
      exfalso
      simp only [List.nil_append, List.cons_append] at h
      rcases hx' with hx' | ⟨y, hx'⟩
      · rw [hx'] at h
        cases h
      · rw [hx'] at h
        injection h with h1 h2
        exact ha (h1 ▸ List.mem_cons_self _ _)
    | cons c cs =>
      simp only [List.cons_append] at h
      injection h with h1 h2
      have hb : dot ∉ bs := fun hm => ha (List.mem_cons_of_mem _ hm)
      have hc : dot ∉ cs := fun hm => ha' (List.mem_cons_of_mem _ hm)
      obtain ⟨e1, e2⟩ := ih cs hb hc h2
      exact ⟨by rw [h1, e1], e2⟩

theorem dotted_shape (ks : List GoString) : dotted ks = [] ∨ ∃ y, dotted ks = dot :: y := by
  cases ks with
  | nil => exact Or.inl rfl
  | cons k ks => exact Or.inr ⟨_, dotted_cons k ks⟩

theorem dotted_injective (ks ks' : List GoString) (h : DotFree ks) (h' : DotFree ks')
    (heq : dotted ks = dotted ks') : ks = ks' := by
  induction ks generalizing ks' with
  | nil =>
    cases ks' with
    | nil => rfl
    | cons k' ks' =>
      rw [dotted_cons] at heq
      cases heq
  | cons k ks ih =>
    cases ks' with
    | nil =>
      rw [dotted_cons] at heq
      cases heq
    | cons k' ks' =>
      rw [dotted_cons, dotted_cons] at heq
      injection heq with _ h2
      obtain ⟨e1, e2⟩ := key_split k k' _ _ (h k (List.mem_cons_self _ _))
        (h' k' (List.mem_cons_self _ _)) (dotted_shape ks) (dotted_shape ks') h2
      rw [e1, ih ks' (fun x hx => h x (List.mem_cons_of_mem _ hx))
        (fun x hx => h' x (List.mem_cons_of_mem _ hx)) e2]

/-- The dotted code determines the key path, among paths whose keys contain
no separator and whose first key is not empty. -/
theorem dottedCode_injective (ks ks' : List GoString) (h : DotFree ks) (h' : DotFree ks')
    (hne : HeadNonEmpty ks) (hne' : HeadNonEmpty ks')
    (heq : dottedCode ks = dottedCode ks') : ks = ks' := by
  cases ks with
  | nil =>
    cases ks' with
    | nil => rfl
    | cons k' ks' =>
      exfalso
      have hk' : k' ≠ [] := fun hk => hne' (by rw [hk]; rfl)
      simp only [dottedCode] at heq
      cases k' with
      | nil => exact hk' rfl
      | cons c cs => cases heq
  | cons k ks =>
    cases ks' with
    | nil =>
      exfalso
      have hk : k ≠ [] := fun hk => hne (by rw [hk]; rfl)
      simp only [dottedCode] at heq
      cases k with
      | nil => exact hk rfl
      | cons c cs => cases heq
    | cons k' ks' =>
      have heq2 : k ++ dotted ks = k' ++ dotted ks' := heq
      obtain ⟨e1, e2⟩ := key_split k k' _ _ (h k (List.mem_cons_self _ _))
        (h' k' (List.mem_cons_self _ _)) (dotted_shape ks) (dotted_shape ks') heq2
      rw [e1, dotted_injective ks ks' (fun x hx => h x (List.mem_cons_of_mem _ hx))
        (fun x hx => h' x (List.mem_cons_of_mem _ hx)) e2]

/-! ## The walk registers the leaves -/

theorem foldl_register_map_cons (path key : GoString) (ls : List (List GoString × GoMap))
    (t : Table) :
    (ls.map (fun l => (key :: l.1, l.2))).foldl (register path) t
      = ls.foldl (register (subPath path key)) t := by
  induction ls generalizing t with
  | nil => rfl
  | cons l rest ih =>
    simp only [List.map_cons, List.foldl_cons]
    rw [ih]
    rfl

mutual
/-- A successful walk below `value` registers the leaves below it one after
the other, and each of them has string fields. -/
theorem buildTemplateMapAny_eq (path : GoString) (value : GoAny) (t t' : Table)
    (h : buildTemplateMapAny path value t = some t') :
    t' = (leavesAny value).foldl (register path) t ∧
      ∀ l ∈ leavesAny value, StringFields l.2 := by
  cases value with
  | str s => simp [buildTemplateMapAny] at h
  | other => simp [buildTemplateMapAny] at h
  | map currMap =>
    unfold buildTemplateMapAny at h
    unfold leavesAny
    cases htitle : currMap.lookup (lit "title") with
    | none =>
      simp only [htitle] at h ⊢
      exact rangeLoop_eq path currMap t t' h
    | some title =>
      simp only [htitle] at h ⊢
      split at h
      · next level ttl message hl hm =>
        simp only [Option.some.injEq] at h
        constructor
        · simp [register, pathAfter, leafTemplate, stringOf, htitle, hl, hm, ← h]
        · intro l hmem
          simp only [List.mem_singleton] at hmem
          rw [hmem]
          exact ⟨ttl, message, level, htitle, hm, hl⟩
      · cases h
/-- A successful loop over the entries of a group registers the leaves below
them one after the other. -/
theorem rangeLoop_eq (path : GoString) (entries : List (GoString × GoAny)) (t t' : Table)
    (h : rangeLoop path entries t = some t') :
    t' = (leavesLoop entries).foldl (register path) t ∧
      ∀ l ∈ leavesLoop entries, StringFields l.2 := by
  match entries with
  | [] =>
    simp only [rangeLoop, Option.some.injEq] at h
    simp [leavesLoop, h]
  | (key, value) :: rest =>
    unfold rangeLoop at h
    unfold leavesLoop
    cases hv : buildTemplateMapAny (subPath path key) value t with
    | none => simp [hv] at h
    | some t1 =>
      simp only [hv] at h
      obtain ⟨e1, s1⟩ := buildTemplateMapAny_eq (subPath path key) value t t1 hv
      obtain ⟨e2, s2⟩ := rangeLoop_eq path rest t1 t' h
      constructor
      · rw [List.foldl_append, foldl_register_map_cons, ← e1, e2]
      · intro l hmem
        rcases List.mem_append.mp hmem with hm | hm
        · obtain ⟨l0, hl0, rfl⟩ := List.mem_map.mp hm
          exact s1 l0 hl0
        · exact s2 l hm
end

/-- Under pairwise different key paths whose keys contain no separator and
whose first key is not empty, the codes of the leaves are pairwise
different. -/
theorem codes_nodup (catalog : GoMap)
    (hpaths : (leafPaths catalog).Nodup)
    (hdot : ∀ ks ∈ leafPaths catalog, DotFree ks)
    (hhead : ∀ ks ∈ leafPaths catalog, HeadNonEmpty ks) :
    ((leaves catalog).map (fun l => dottedCode l.1)).Nodup := by
  have hmap : (leaves catalog).map (fun l => dottedCode l.1)
      = (leafPaths catalog).map dottedCode := by
    simp [leafPaths, List.map_map, Function.comp_def]
  rw [hmap]
  apply List.Nodup.map_on _ hpaths
  intro ks hks ks' hks' heq
  exact dottedCode_injective ks ks' (hdot ks hks) (hdot ks' hks') (hhead ks hks)
    (hhead ks' hks') heq

/-- The table built from an empty one: one entry per leaf, under its dotted
code, the last leaf visited first. -/
theorem buildTemplateMap_table (catalog : GoMap) (table : Table)
    (hload : buildTemplateMap [] catalog [] = some table)
    (hpaths : (leafPaths catalog).Nodup)
    (hdot : ∀ ks ∈ leafPaths catalog, DotFree ks)
    (hhead : ∀ ks ∈ leafPaths catalog, HeadNonEmpty ks) :
    table = ((leaves catalog).map
      (fun l => (dottedCode l.1, leafTemplate (dottedCode l.1) l.2))).reverse := by
  have hroot : ∀ l ∈ leaves catalog, pathAfter [] l.1 = dottedCode l.1 := by
    intro l hl
    exact pathAfter_root l.1 (hhead l.1 (List.mem_map.mpr ⟨l, hl, rfl⟩))
  have hcodes : (leaves catalog).map (fun l => pathAfter [] l.1)
      = (leaves catalog).map (fun l => dottedCode l.1) :=
    List.map_congr_left hroot
  have hentries : (leaves catalog).map
        (fun l => (pathAfter [] l.1, leafTemplate (pathAfter [] l.1) l.2))
      = (leaves catalog).map
        (fun l => (dottedCode l.1, leafTemplate (dottedCode l.1) l.2)) :=
    List.map_congr_left (fun l hl => by rw [hroot l hl])
  have hfold := (buildTemplateMapAny_eq [] (.map catalog) [] table hload).1
  rw [hfold]
  have hfresh := foldl_register_fresh [] (leaves catalog) []
    (by rw [hcodes]; exact codes_nodup catalog hpaths hdot hhead)
    (by intro l _; simp)
  rw [List.append_nil] at hfresh
  rw [← hentries]
  exact hfresh

/-! ## C9: every leaf is retrievable under its dotted code -/

set_option maxRecDepth 8000 in
/-- C9 (as stated, refuted): the load of `{"a.b": leafT, "a": {"b": leafU}}`
succeeds and the leaf reached through the key `a.b` has title `T`, but the
entry found under the code `a.b` has title `U`; in the other order of visit
the leaf reached through `a`, `b` has title `U` and the entry under `a.b` has
title `T`. The load of `{"": {"a": leafT}}` succeeds and nothing is found
under the code `.a` of the keys `""`, `a`. -/
theorem C9_counterexample :
    (leaves dottedKeyCatalog).map (fun l => (l.1, stringOf (l.2.lookup (lit "title"))))
      = [([lit "a.b"], lit "T"), ([lit "a", lit "b"], lit "U")] ∧
    (buildTemplateMap [] dottedKeyCatalog []).map
        (fun t => (t.get (dottedCode [lit "a.b"])).map (fun e => e.Title))
      = some (some (lit "U")) ∧
    (buildTemplateMap [] dottedKeyCatalogRev []).map
        (fun t => (t.get (dottedCode [lit "a", lit "b"])).map (fun e => e.Title))
      = some (some (lit "T")) ∧
    leafPaths emptyKeyCatalog = [[lit "", lit "a"]] ∧
    dottedCode [lit "", lit "a"] = lit ".a" ∧
    (buildTemplateMap [] emptyKeyCatalog []).map (fun t => t.get (lit ".a"))
      = some none := by
  decide

/-- C9 (amended): for every catalog in which no key on the way to a leaf
contains `.` and no key of the root group is empty (the key paths of the
leaves being pairwise different, as in a Go map), if the load from an empty
table succeeds then every leaf reached through the keys `k1, ..., kn` has a
string title, message and level, and the table holds under the code
`k1 + "." + ... + "." + kn` an entry with exactly these three fields and a
Code equal to that code. -/
theorem C9_leaf_retrievable (catalog : GoMap) (table : Table)
    (hload : buildTemplateMap [] catalog [] = some table)
    (hpaths : (leafPaths catalog).Nodup)
    (hdot : ∀ ks ∈ leafPaths catalog, DotFree ks)
    (hhead : ∀ ks ∈ leafPaths catalog, HeadNonEmpty ks)
    (ks : List GoString) (leaf : GoMap) (hleaf : (ks, leaf) ∈ leaves catalog) :
    ∃ title message level,
      leaf.lookup (lit "title") = some (.str title) ∧
      leaf.lookup (lit "message") = some (.str message) ∧
      leaf.lookup (lit "level") = some (.str level) ∧
      table.get (dottedCode ks) =
        some { Code := dottedCode ks, Level := level, Title := title,
               Message := message } := by
  obtain ⟨title, message, level, ht, hm, hl⟩ :=
    (buildTemplateMapAny_eq [] (.map catalog) [] table hload).2 (ks, leaf) hleaf
  refine ⟨title, message, level, ht, hm, hl, ?_⟩
  have htable := buildTemplateMap_table catalog table hload hpaths hdot hhead
  have hval : leafTemplate (dottedCode ks) leaf
      = { Code := dottedCode ks, Level := level, Title := title, Message := message } := by
    simp [leafTemplate, stringOf, ht, hm, hl]
  rw [← hval]
  unfold Table.get
  apply lookup_of_mem_nodup
  · rw [htable, List.map_reverse, List.nodup_reverse, List.map_map]
    exact codes_nodup catalog hpaths hdot hhead
  · rw [htable, List.mem_reverse]
    exact List.mem_map.mpr ⟨(ks, leaf), hleaf, rfl⟩

set_option maxRecDepth 8000 in
/-- Witness of C9 (amended): in the catalog
`{"billing": {"invoice": {"overdue": leafT}}, "login": leafU}` the leaf below
`billing`, `invoice`, `overdue` is found under `billing.invoice.overdue`. -/
theorem C9_leaf_retrievable_witness :
    buildTemplateMap [] sampleCatalog [] = some sampleTable ∧
    sampleTable.get (lit "billing.invoice.overdue") =
      some { Code := lit "billing.invoice.overdue", Level := lit "INFO",
             Title := lit "T", Message := lit "M" } := by
  refine ⟨by decide, ?_⟩
  obtain ⟨title, message, level, ht, hm, hl, hget⟩ :=
    C9_leaf_retrievable sampleCatalog sampleTable (by decide) (by decide) (by decide)
      (by decide) [lit "billing", lit "invoice", lit "overdue"]
      [(lit "title", .str (lit "T")), (lit "message", .str (lit "M")),
        (lit "level", .str (lit "INFO"))]
      (List.Mem.head _)
  have e1 : title = lit "T" := by
    have h : some (GoAny.str (lit "T")) = some (GoAny.str title) := ht
    injection h with h
    injection h with h
    exact h.symm
  have e2 : message = lit "M" := by
    have h : some (GoAny.str (lit "M")) = some (GoAny.str message) := hm
    injection h with h
    injection h with h
    exact h.symm
  have e3 : level = lit "INFO" := by
    have h : some (GoAny.str (lit "INFO")) = some (GoAny.str level) := hl
    injection h with h
    injection h with h
    exact h.symm
  have ecode : dottedCode [lit "billing", lit "invoice", lit "overdue"]
      = lit "billing.invoice.overdue" := by decide
  rw [e1, e2, e3, ecode] at hget
  exact hget

/-! ## C10: one entry per leaf -/

set_option maxRecDepth 8000 in
/-- C10 (as stated, refuted): the catalog `{"a.b": leafT, "a": {"b": leafU}}`
has two leaves with the different key paths `a.b` and `a`, `b`; both get the
code `a.b` and the table built from an empty one has one entry. The catalog
`{"": {"a": leafT}, "a": leafU}` has two leaves and its table one entry,
under `a`. -/
theorem C10_counterexample :
    leafPaths dottedKeyCatalog = [[lit "a.b"], [lit "a", lit "b"]] ∧
    dottedCode [lit "a.b"] = dottedCode [lit "a", lit "b"] ∧
    (leaves dottedKeyCatalog).length = 2 ∧
    (buildTemplateMap [] dottedKeyCatalog []).map (fun t => t.map Prod.fst)
      = some [lit "a.b"] ∧
    leafPaths emptyKeyCollisionCatalog = [[lit "", lit "a"], [lit "a"]] ∧
    (buildTemplateMap [] emptyKeyCollisionCatalog []).map (fun t => t.map Prod.fst)
      = some [lit "a"] := by
  decide

/-- C10 (amended): for every catalog in which no key on the way to a leaf
contains `.` and no key of the root group is empty (the key paths of the
leaves being pairwise different, as in a Go map), two leaves with different
key paths have different codes, and if the load from an empty table succeeds
the table has as many entries as the catalog has leaves, under pairwise
different codes. -/
theorem C10_codes_unique (catalog : GoMap)
    (hpaths : (leafPaths catalog).Nodup)
    (hdot : ∀ ks ∈ leafPaths catalog, DotFree ks)
    (hhead : ∀ ks ∈ leafPaths catalog, HeadNonEmpty ks) :
    (∀ ks ∈ leafPaths catalog, ∀ ks' ∈ leafPaths catalog,
      ks ≠ ks' → dottedCode ks ≠ dottedCode ks') ∧
    (∀ table, buildTemplateMap [] catalog [] = some table →
      table.length = (leaves catalog).length ∧ (table.map Prod.fst).Nodup) := by
  constructor
  · intro ks hks ks' hks' hne heq
    exact hne (dottedCode_injective ks ks' (hdot ks hks) (hdot ks' hks') (hhead ks hks)
      (hhead ks' hks') heq)
  · intro table hload
    have htable := buildTemplateMap_table catalog table hload hpaths hdot hhead
    constructor
    · rw [htable, List.length_reverse, List.length_map]
    · rw [htable, List.map_reverse, List.nodup_reverse, List.map_map]
      exact codes_nodup catalog hpaths hdot hhead

set_option maxRecDepth 8000 in
/-- Witness of C10 (amended): the catalog
`{"billing": {"invoice": {"overdue": leafT}}, "login": leafU}` has two leaves
and its table two entries. -/
theorem C10_codes_unique_witness :
    (leaves sampleCatalog).length = 2 ∧
    buildTemplateMap [] sampleCatalog [] = some sampleTable ∧
    sampleTable.length = 2 :=
  ⟨rfl, by decide,
    ((C10_codes_unique sampleCatalog (by decide) (by decide) (by decide)).2
      sampleTable (by decide)).1⟩

/-! ## C13 and C14: rendering of the title and of the message -/

/-- C14: when the title render succeeds and the message render fails,
`fillInParameters` returns the rendered title together with the text of the
message render error; when the title render fails, the returned title is the
text of the title render error; when both succeed, it returns both rendered
strings. `fillInParameters` returns a pair of strings in every case: it has no
error result. -/
theorem C14_only_failing_field_replaced (env : Env) (title message : GoString)
    (parameters : GoMap) :
    (∀ t err, fillTemplate env title parameters = .ok t →
      fillTemplate env message parameters = .error err →
      fillInParameters env title message parameters = (t, err)) ∧
    (∀ err, fillTemplate env title parameters = .error err →
      (fillInParameters env title message parameters).1 = err) ∧
    (∀ t m, fillTemplate env title parameters = .ok t →
      fillTemplate env message parameters = .ok m →
      fillInParameters env title message parameters = (t, m)) := by
  refine ⟨?_, ?_, ?_⟩
  · intro t err ht hm
    simp [fillInParameters, ht, hm]
  · intro err ht
    simp [fillInParameters, ht]
  · intro t m ht hm
    simp [fillInParameters, ht, hm]

/-- Witness of C14: the title `Hello {{.name}}` renders and the message
`{{parameters.name}}` fails: the result is the rendered title and the error
text. -/
theorem C14_only_failing_field_replaced_witness :
    fillInParameters goEnv (lit "Hello {{.name}}") (lit "{{parameters.name}}")
        annParameters
      = (lit "Hello Ann", lit "template: tmp:1: function \"parameters\" not defined") :=
  (C14_only_failing_field_replaced goEnv (lit "Hello {{.name}}")
    (lit "{{parameters.name}}") annParameters).1 _ _ rfl rfl

/-! ## C15: the sizes of the stored fields -/

/-- C15: for every event, table and renderer, `handleNewEvent` returns without
a panic of its slices, and every record it hands to storage has a Title of at
most 64 bytes and a Message of at most 512 bytes; the clipping step itself
always yields a text of at most the given size. -/
theorem C15_size_invariant (env : Env) (ev : SentEvent) :
    (∃ o, handleNewEvent env ev = some o ∧
      ∀ r ∈ o.stored, r.Title.length ≤ 64 ∧ r.Message.length ≤ 512) ∧
    (∀ (n : Nat) (s : GoString), ∃ c, clip n s = some c ∧ c.length ≤ n) := by
  constructor
  · cases hm : env.marshal ev.Parameters with
    | none => exact ⟨_, handleNewEvent_marshal_none env ev hm, by simp⟩
    | some params =>
      refine ⟨_, handleNewEvent_marshal_some env ev params hm, ?_⟩
      intro r hr
      simp only [List.mem_singleton] at hr
      rw [hr]
      exact ⟨List.length_take_le _ _, List.length_take_le _ _⟩
  · intro n s
    exact ⟨_, clip_eq_take n s, List.length_take_le _ _⟩

/-! ## C16: the lookup of a code -/

/-- C16: for a code present in the table `getTitleAndMessage` returns the
stored template's Title and Message unchanged and `convertLevel` of its Level;
for a code absent from the table it returns `"?" + code + "?"`,
`"?Code not found?"` and ERROR. It is a total function. -/
theorem C16_getTitleAndMessage (templates : Table) (code : GoString) :
    (∀ t, templates.get code = some t →
      getTitleAndMessage templates code = (t.Title, t.Message, convertLevel t.Level)) ∧
    (templates.get code = none →
      getTitleAndMessage templates code =
        (lit "?" ++ code ++ lit "?", lit "?Code not found?",
          EventLevel.EventLevelError)) := by
  constructor
  · intro t h
    simp [getTitleAndMessage, h]
  · intro h
    simp [getTitleAndMessage, h]

set_option maxRecDepth 8000 in
/-- Witness of C16: the code `login` of `sampleTable` gives the template's
title `U`, message `N` and the level WARNING of `WARN`; the code `nowhere`
gives the placeholder. -/
theorem C16_getTitleAndMessage_witness :
    getTitleAndMessage sampleTable (lit "login")
      = (lit "U", lit "N", EventLevel.EventLevelWarning) ∧
    getTitleAndMessage sampleTable (lit "nowhere")
      = (lit "?nowhere?", lit "?Code not found?", EventLevel.EventLevelError) :=
  ⟨((C16_getTitleAndMessage sampleTable (lit "login")).1
      { Code := lit "login", Level := lit "WARN", Title := lit "U", Message := lit "N" }
      (by decide)).trans (by decide),
    ((C16_getTitleAndMessage sampleTable (lit "nowhere")).2 (by decide)).trans
      (by decide)⟩

/-! ## C19: the fields that the pipeline does not touch -/

/-- C19: for every event, table and renderer, `handleNewEvent` returns and
every record it hands to storage has the event's Username and EventDate and,
as Parameters, the serialisation of the event's Parameters; two environments
with the same codec, whatever their tables and renderers, store the same
Username, EventDate and Parameters: they differ at most in Level, Title and
Message. -/
theorem C19_frame (env : Env) (ev : SentEvent) :
    (∃ o, handleNewEvent env ev = some o ∧
      ∀ r ∈ o.stored, r.Username = ev.Username ∧ r.EventDate = ev.EventDate ∧
        env.marshal ev.Parameters = some r.Parameters) ∧
    (∀ env' : Env, env'.marshal = env.marshal →
      (handleNewEvent env ev).map
          (fun o => o.stored.map (fun r => (r.Username, r.EventDate, r.Parameters)))
        = (handleNewEvent env' ev).map
          (fun o => o.stored.map (fun r => (r.Username, r.EventDate, r.Parameters)))) := by
  constructor
  · cases hm : env.marshal ev.Parameters with
    | none => exact ⟨_, handleNewEvent_marshal_none env ev hm, by simp⟩
    | some params =>
      refine ⟨_, handleNewEvent_marshal_some env ev params hm, ?_⟩
      intro r hr
      simp only [List.mem_singleton] at hr
      rw [hr]
      exact ⟨rfl, rfl, rfl⟩
  · intro env' henv
    cases hm : env.marshal ev.Parameters with
    | none =>
      rw [handleNewEvent_marshal_none env ev hm,
        handleNewEvent_marshal_none env' ev (by rw [henv, hm])]
    | some params =>
      rw [handleNewEvent_marshal_some env ev params hm,
        handleNewEvent_marshal_some env' ev params (by rw [henv, hm])]
      rfl

set_option maxRecDepth 8000 in
/-- Witness of C19: with the table of `sampleCatalog` and with an empty table
the event of code `login` is stored with the same Username, EventDate and
Parameters. -/
theorem C19_frame_witness :
    (handleNewEvent catalogEnv { inlineEvent with Code := lit "login" }).map
        (fun o => o.stored.map (fun r => (r.Username, r.EventDate, r.Parameters)))
      = some [(lit "ann", 0, lit "{}")] ∧
    (handleNewEvent exampleEnv { inlineEvent with Code := lit "login" }).map
        (fun o => o.stored.map (fun r => (r.Username, r.EventDate, r.Parameters)))
      = some [(lit "ann", 0, lit "{}")] :=
  ⟨by decide,
    ((C19_frame catalogEnv { inlineEvent with Code := lit "login" }).2 exampleEnv
      rfl).symm.trans (by decide)⟩

/-! ## Lemmas on the template engine -/

theorem cutDelim_cons_ne (d a : UInt8) (l : GoString) (h : a ≠ d) :
    cutDelim d (a :: l) = (cutDelim d l).map (fun r => (a :: r.1, r.2)) := by
  cases l with
  | nil => rfl
  | cons b r => simp [cutDelim, h]

theorem cutDelim_none (d : UInt8) (s : GoString) (h : d ∉ s) : cutDelim d s = none := by
  induction s with
  | nil => rfl
  | cons a s ih =>
    have ha : a ≠ d := fun e => h (e ▸ List.mem_cons_self _ _)
    rw [cutDelim_cons_ne d a _ ha, ih (fun hm => h (List.mem_cons_of_mem _ hm))]
    rfl

/-- The engine of `goEnv` is html/template on the fragment. -/
theorem goEnv_engine : HtmlTemplateEngine goEnv := by
  intro temp data r h
  show (htmlTemplate temp data).getD _ = r
  rw [h]
  rfl

/-! ## C11: references to parameters -/

theorem mem_of_lookup_eq_some {β : Type} (l : List (GoString × β)) (k : GoString) (v : β)
    (h : l.lookup k = some v) : (k, v) ∈ l := by
  induction l with
  | nil => cases h
  | cons e rest ih =>
    obtain ⟨k', w⟩ := e
    rw [List.lookup_cons] at h
    by_cases hk : k = k'
    · subst hk
      simp only [beq_self_eq_true, Option.some.injEq] at h
      rw [h]
      exact List.mem_cons_self _ _
    · rw [beq_false_of_ne hk] at h
      exact List.mem_cons_of_mem _ (ih h)

theorem lookup_eq_none_iff_keys {β : Type} (l : List (GoString × β)) (k : GoString) :
    l.lookup k = none ↔ k ∉ l.map Prod.fst := by
  induction l with
  | nil => simp
  | cons e rest ih =>
    obtain ⟨k', w⟩ := e
    rw [List.lookup_cons]
    by_cases hk : k = k'
    · subst hk
      simp
    · rw [beq_false_of_ne hk, ih]
      simp [hk]

mutual
/-- The walk below a value succeeds exactly when the value is a well-formed
node, whatever the path and the table it starts from. -/
theorem buildTemplateMapAny_isSome (path : GoString) (value : GoAny) (t : Table) :
    (buildTemplateMapAny path value t).isSome = wellFormedAny value := by
  cases value with
  | str s => simp [buildTemplateMapAny, wellFormedAny]
  | other => simp [buildTemplateMapAny, wellFormedAny]
  | map currMap =>
    unfold buildTemplateMapAny wellFormedAny
    cases htitle : currMap.lookup (lit "title") with
    | none =>
      simp only []
      exact rangeLoop_isSome path currMap t
    | some title =>
      simp only []
      rcases title with s | m | _ <;>
        rcases hl : currMap.lookup (lit "level") with _ | (l | l | _) <;>
        rcases hm : currMap.lookup (lit "message") with _ | (m' | m' | _) <;>
        simp [isString]
/-- The loop over the entries of a group succeeds exactly when every value is
a well-formed node. -/
theorem rangeLoop_isSome (path : GoString) (entries : List (GoString × GoAny))
    (t : Table) :
    (rangeLoop path entries t).isSome = wellFormedLoop entries := by
  match entries with
  | [] => simp [rangeLoop, wellFormedLoop]
  | (key, value) :: rest =>
    unfold rangeLoop wellFormedLoop
    have h1 := buildTemplateMapAny_isSome (subPath path key) value t
    cases hv : buildTemplateMapAny (subPath path key) value t with
    | none =>
      rw [hv] at h1
      simp [← h1]
    | some t1 =>
      rw [hv] at h1
      simp only []
      rw [rangeLoop_isSome path rest t1, ← h1]
      simp
end

theorem wellFormedLoop_iff (entries : List (GoString × GoAny)) :
    wellFormedLoop entries = true ↔ ∀ e ∈ entries, wellFormedAny e.2 = true := by
  induction entries with
  | nil => simp [wellFormedLoop]
  | cons e rest ih =>
    obtain ⟨k, v⟩ := e
    unfold wellFormedLoop
    simp [ih]

theorem leavesLoop_eq_flatMap (entries : List (GoString × GoAny)) :
    leavesLoop entries
      = entries.flatMap (fun e => (leavesAny e.2).map (fun l => (e.1 :: l.1, l.2))) := by
  induction entries with
  | nil => simp [leavesLoop]
  | cons e rest ih =>
    obtain ⟨k, v⟩ := e
    unfold leavesLoop
    rw [ih, List.flatMap_cons]

/-! ## Lemmas on the order of visit -/

theorem wellFormedLoop_perm (entries entries' : List (GoString × GoAny))
    (h : entries.Perm entries') : wellFormedLoop entries = wellFormedLoop entries' := by
  rw [Bool.eq_iff_iff, wellFormedLoop_iff, wellFormedLoop_iff]
  constructor
  · intro hall e he
    exact hall e (h.mem_iff.mpr he)
  · intro hall e he
    exact hall e (h.mem_iff.mp he)

theorem leavesLoop_perm (entries entries' : List (GoString × GoAny))
    (h : entries.Perm entries') : (leavesLoop entries).Perm (leavesLoop entries') := by
  rw [leavesLoop_eq_flatMap, leavesLoop_eq_flatMap]
  exact h.flatMap_right _

mutual
/-- Another order of visit keeps the well-formedness of a value and its
leaves, up to their order. -/
theorem reordered_any (value value' : GoAny) (h : Reordered value value') :
    wellFormedAny value' = wellFormedAny value ∧
      (leavesAny value').Perm (leavesAny value) := by
  cases value with
  | str s =>
    unfold Reordered at h
    rw [h]
    exact ⟨rfl, List.Perm.refl _⟩
  | other =>
    unfold Reordered at h
    rw [h]
    exact ⟨rfl, List.Perm.refl _⟩
  | map currMap =>
    unfold Reordered at h
    cases htitle : currMap.lookup (lit "title") with
    | some title =>
      simp only [htitle] at h
      rw [h]
      exact ⟨rfl, List.Perm.refl _⟩
    | none =>
      simp only [htitle] at h
      obtain ⟨entries, entries', hre, hperm, hval⟩ := h
      obtain ⟨hkeys, hwf, hleaves⟩ := reordered_entries currMap entries hre
      have htitle' : entries'.lookup (lit "title") = none := by
        rw [lookup_eq_none_iff_keys] at htitle ⊢
        intro hm
        apply htitle
        rw [← hkeys]
        exact (hperm.map Prod.fst).mem_iff.mpr hm
      rw [hval]
      constructor
      · unfold wellFormedAny
        simp only [htitle, htitle']
        rw [← wellFormedLoop_perm entries entries' hperm, hwf]
      · unfold leavesAny
        simp only [htitle, htitle']
        exact (leavesLoop_perm entries entries' hperm).symm.trans hleaves
/-- Entries reordered inside keep their keys, their well-formedness and their
leaves, up to the order of the leaves. -/
theorem reordered_entries (entries entries' : List (GoString × GoAny))
    (h : ReorderedEntries entries entries') :
    entries'.map Prod.fst = entries.map Prod.fst ∧
      wellFormedLoop entries' = wellFormedLoop entries ∧
      (leavesLoop entries').Perm (leavesLoop entries) := by
  match entries with
  | [] =>
    unfold ReorderedEntries at h
    rw [h]
    exact ⟨rfl, rfl, List.Perm.refl _⟩
  | (key, value) :: rest =>
    unfold ReorderedEntries at h
    obtain ⟨value', rest', hv, hrest, hentries⟩ := h
    obtain ⟨hwf1, hl1⟩ := reordered_any value value' hv
    obtain ⟨hk2, hwf2, hl2⟩ := reordered_entries rest rest' hrest
    rw [hentries]
    refine ⟨?_, ?_, ?_⟩
    · simp [hk2]
    · unfold wellFormedLoop
      rw [hwf1, hwf2]
    · unfold leavesLoop
      exact (hl1.map _).append hl2
end

mutual
/-- The order in which a catalog is written is one of its orders of visit. -/
theorem reordered_refl (value : GoAny) : Reordered value value := by
  cases value with
  | str s =>
    unfold Reordered
    rfl
  | other =>
    unfold Reordered
    rfl
  | map currMap =>
    unfold Reordered
    cases htitle : currMap.lookup (lit "title") with
    | some title => rfl
    | none =>
      exact ⟨currMap, currMap, reorderedEntries_refl currMap, List.Perm.refl _, rfl⟩
/-- Entries are reordered entries of themselves. -/
theorem reorderedEntries_refl (entries : List (GoString × GoAny)) :
    ReorderedEntries entries entries := by
  match entries with
  | [] =>
    unfold ReorderedEntries
    rfl
  | (key, value) :: rest =>
    unfold ReorderedEntries
    exact ⟨value, rest, reordered_refl value, reorderedEntries_refl rest, rfl⟩
end

/-- A permutation of the entries of a group is another order of visit. -/
theorem reordered_of_perm (currMap entries' : GoMap)
    (htitle : currMap.lookup (lit "title") = none) (h : currMap.Perm entries') :
    Reordered (.map currMap) (.map entries') := by
  unfold Reordered
  simp only [htitle]
  exact ⟨currMap, entries', reorderedEntries_refl currMap, h, rfl⟩

theorem lookup_eq_of_perm (l l' : Table) (h : l.Perm l') (hnd : (l.map Prod.fst).Nodup)
    (c : GoString) : l.lookup c = l'.lookup c := by
  have hnd' : (l'.map Prod.fst).Nodup := (h.map Prod.fst).nodup_iff.mp hnd
  cases hl : l.lookup c with
  | none =>
    rw [lookup_eq_none_iff_keys] at hl
    exact ((lookup_eq_none_iff_keys l' c).mpr
      (fun hm => hl ((h.map Prod.fst).mem_iff.mpr hm))).symm
  | some v =>
    exact (lookup_of_mem_nodup l' c v hnd'
      (h.mem_iff.mp (mem_of_lookup_eq_some l c v hl))).symm

/-! ## C17: the catalogs on which the load fails -/

/-- C17: `buildTemplateMap` treats a node as a leaf exactly when it has a
`title` key. Without the key it runs the loop over the entries and fails when
one of the values is no group; with the key it registers the node under its
path when title, message and level are strings and fails when one of them is
missing or no string. It always terminates, and it succeeds exactly on the
well-formed nodes: each node with a title has string title, message and level
and each other node has only well-formed groups as values. -/
theorem C17_load_fails_on_malformed (path : GoString) (currMap : GoMap)
    (templates : Table) :
    (currMap.lookup (lit "title") = none →
      buildTemplateMap path currMap templates = rangeLoop path currMap templates ∧
      ((∃ e ∈ currMap, ∀ m, e.2 ≠ GoAny.map m) →
        buildTemplateMap path currMap templates = none)) ∧
    (∀ title, currMap.lookup (lit "title") = some title →
      (∀ t m l, title = .str t → currMap.lookup (lit "message") = some (.str m) →
        currMap.lookup (lit "level") = some (.str l) →
        buildTemplateMap path currMap templates =
          some (templates.set path
            { Code := path, Level := l, Title := t, Message := m })) ∧
      ((isString (some title) && isString (currMap.lookup (lit "message"))
          && isString (currMap.lookup (lit "level"))) = false →
        buildTemplateMap path currMap templates = none)) ∧
    (buildTemplateMap path currMap templates).isSome = wellFormedAny (.map currMap) := by
  have hiff : (buildTemplateMap path currMap templates).isSome
      = wellFormedAny (.map currMap) :=
    buildTemplateMapAny_isSome path (.map currMap) templates
  refine ⟨?_, ?_, hiff⟩
  · intro htitle
    constructor
    · simp [buildTemplateMap, buildTemplateMapAny, htitle]
    · rintro ⟨e, he, hne⟩
      have hfalse : wellFormedAny (.map currMap) = false := by
        unfold wellFormedAny
        simp only [htitle]
        rw [Bool.eq_false_iff]
        intro hwf
        have hbad := (wellFormedLoop_iff currMap).mp hwf e he
        cases hv : e.2 with
        | str s => rw [hv] at hbad; simp [wellFormedAny] at hbad
        | other => rw [hv] at hbad; simp [wellFormedAny] at hbad
        | map m => exact hne m hv
      rw [hfalse] at hiff
      exact Option.not_isSome_iff_eq_none.mp (by rw [hiff]; simp)
  · intro title htitle
    constructor
    · intro t m l ht hm hl
      subst ht
      simp [buildTemplateMap, buildTemplateMapAny, htitle, hm, hl]
    · intro hbad
      have hfalse : wellFormedAny (.map currMap) = false := by
        unfold wellFormedAny
        simp only [htitle]
        exact hbad
      rw [hfalse] at hiff
      exact Option.not_isSome_iff_eq_none.mp (by rw [hiff]; simp)

set_option maxRecDepth 8000 in
/-- Witness of C17: the group `{"b": 5}` below the path `a` has a value that
is no group and the walk fails there; the load of `{"a": {"b": 5}}` fails, as
does the load of a catalog with a leaf without a level; the load of
`sampleCatalog` succeeds. -/
theorem C17_load_fails_on_malformed_witness :
    buildTemplateMap (lit "a") [(lit "b", .other)] [] = none ∧
    (buildTemplateMap [] scalarChildCatalog []).isSome = false ∧
    (buildTemplateMap [] noLevelCatalog []).isSome = false ∧
    (buildTemplateMap [] sampleCatalog []).isSome = true :=
  ⟨((C17_load_fails_on_malformed (lit "a") [(lit "b", .other)] []).1 rfl).2
      ⟨(lit "b", .other), List.Mem.head _, fun m h => by cases h⟩,
    (C17_load_fails_on_malformed [] scalarChildCatalog []).2.2.trans (by decide),
    (C17_load_fails_on_malformed [] noLevelCatalog []).2.2.trans (by decide),
    (C17_load_fails_on_malformed [] sampleCatalog []).2.2.trans (by decide)⟩

/-! ## C18: the table does not depend on the order of visit -/

theorem headNonEmpty_of_keys (ks : List GoString) (h : ∀ k ∈ ks, k ≠ [] ∧ dot ∉ k) :
    HeadNonEmpty ks := by
  intro hhead
  cases ks with
  | nil => cases hhead
  | cons k rest =>
    simp only [List.head?_cons, Option.some.injEq] at hhead
    exact (h k (List.mem_cons_self _ _)).1 hhead

/-- A well-formed catalog whose keys fit is loaded into the list of its
leaves, each under its dotted code. -/
theorem load_of_wellFormed (catalog : GoMap)
    (hwf : wellFormedAny (.map catalog) = true)
    (hpaths : (leafPaths catalog).Nodup)
    (hkeys : ∀ ks ∈ leafPaths catalog, ∀ k ∈ ks, k ≠ [] ∧ dot ∉ k) :
    buildTemplateMap [] catalog [] =
      some ((leaves catalog).map
        (fun l => (dottedCode l.1, leafTemplate (dottedCode l.1) l.2))).reverse := by
  have hsome : (buildTemplateMap [] catalog []).isSome = true := by
    rw [← hwf]
    exact buildTemplateMapAny_isSome [] (.map catalog) []
  obtain ⟨table, htable⟩ := Option.isSome_iff_exists.mp hsome
  rw [htable]
  congr 1
  exact buildTemplateMap_table catalog table htable hpaths
    (fun ks hks k hk => (hkeys ks hks k hk).2)
    (fun ks hks => headNonEmpty_of_keys ks (hkeys ks hks))

/-- C18: in a well-formed catalog in which no key on the way to a leaf is
empty or contains `.` (the key paths of the leaves being pairwise different,
as in a Go map), different leaf paths have different codes; the load from an
empty table succeeds and its table has one entry per leaf and no other
entry; and for every other order of visit of the entries of the groups the
load succeeds with a table of the same entries, which answers every lookup
alike. -/
theorem C18_order_independent (catalog : GoMap)
    (hwf : wellFormedAny (.map catalog) = true)
    (hpaths : (leafPaths catalog).Nodup)
    (hkeys : ∀ ks ∈ leafPaths catalog, ∀ k ∈ ks, k ≠ [] ∧ dot ∉ k) :
    (∀ ks ∈ leafPaths catalog, ∀ ks' ∈ leafPaths catalog,
      ks ≠ ks' → dottedCode ks ≠ dottedCode ks') ∧
    ∃ table, buildTemplateMap [] catalog [] = some table ∧
      table.length = (leaves catalog).length ∧
      (∀ code tpl, table.get code = some tpl ↔
        ∃ l ∈ leaves catalog, code = dottedCode l.1 ∧ tpl = leafTemplate code l.2) ∧
      (∀ catalog', Reordered (.map catalog) (.map catalog') →
        ∃ table', buildTemplateMap [] catalog' [] = some table' ∧
          table'.Perm table ∧ ∀ code, table'.get code = table.get code) := by
  have hdot : ∀ ks ∈ leafPaths catalog, DotFree ks :=
    fun ks hks k hk => (hkeys ks hks k hk).2
  have hhead : ∀ ks ∈ leafPaths catalog, HeadNonEmpty ks :=
    fun ks hks => headNonEmpty_of_keys ks (hkeys ks hks)
  have hnd := codes_nodup catalog hpaths hdot hhead
  refine ⟨?_, _, load_of_wellFormed catalog hwf hpaths hkeys, ?_, ?_, ?_⟩
  · intro ks hks ks' hks' hne heq
    exact hne (dottedCode_injective ks ks' (hdot ks hks) (hdot ks' hks') (hhead ks hks)
      (hhead ks' hks') heq)
  · rw [List.length_reverse, List.length_map]
  · intro code tpl
    unfold Table.get
    constructor
    · intro hget
      have hmem := mem_of_lookup_eq_some _ code tpl hget
      rw [List.mem_reverse] at hmem
      obtain ⟨l, hl, heq⟩ := List.mem_map.mp hmem
      injection heq with h1 h2
      exact ⟨l, hl, h1.symm, by rw [← h2, h1]⟩
    · rintro ⟨l, hl, hcode, htpl⟩
      apply lookup_of_mem_nodup
      · rw [List.map_reverse, List.nodup_reverse, List.map_map]
        exact hnd
      · rw [List.mem_reverse, htpl, hcode]
        exact List.mem_map.mpr ⟨l, hl, rfl⟩
  · intro catalog' hre
    obtain ⟨hwf', hperm⟩ := reordered_any (.map catalog) (.map catalog') hre
    have hpathsPerm : (leafPaths catalog').Perm (leafPaths catalog) := hperm.map Prod.fst
    have hload' := load_of_wellFormed catalog' (hwf'.trans hwf)
      (hpathsPerm.nodup_iff.mpr hpaths)
      (fun ks hks => hkeys ks (hpathsPerm.mem_iff.mp hks))
    refine ⟨_, hload', ?_, ?_⟩
    · exact (List.reverse_perm _).trans (((hperm.map _)).trans (List.reverse_perm _).symm)
    · intro code
      unfold Table.get
      apply lookup_eq_of_perm
      · exact (List.reverse_perm _).trans (((hperm.map _)).trans (List.reverse_perm _).symm)
      · rw [List.map_reverse, List.nodup_reverse, List.map_map]
        have hnd' : ((leaves catalog').map (fun l => dottedCode l.1)).Nodup :=
          ((hperm.map (fun l => dottedCode l.1)).nodup_iff).mpr hnd
        exact hnd'

set_option maxRecDepth 8000 in
/-- Witness of C18: `sampleCatalog` visited with `login` first gives a table
that answers the lookups of `login` and `billing.invoice.overdue` as the table
of `sampleCatalog` does. -/
theorem C18_order_independent_witness :
    buildTemplateMap [] sampleCatalog [] = some sampleTable ∧
    (buildTemplateMap [] sampleCatalogRev []).map
        (fun t => (t.get (lit "login"), t.get (lit "billing.invoice.overdue"), t.length))
      = some (sampleTable.get (lit "login"),
          sampleTable.get (lit "billing.invoice.overdue"), 2) := by
  refine ⟨by decide, ?_⟩
  obtain ⟨-, table, hload, -, -, horder⟩ :=
    C18_order_independent sampleCatalog (by decide) (by decide) (by decide)
  have htable : table = sampleTable := by
    have h : buildTemplateMap [] sampleCatalog [] = some sampleTable := by decide
    rw [h] at hload
    injection hload with hload
    exact hload.symm
  subst htable
  obtain ⟨table', hload', hperm, hget⟩ := horder sampleCatalogRev
    (reordered_of_perm sampleCatalog sampleCatalogRev rfl (List.Perm.swap _ _ _))
  rw [hload']
  simp only [Option.map_some', hget, hperm.length_eq]
  rfl

/-! ## Plain texts under the template engine -/

/-- A text with neither `{` nor `<` is rendered to itself, whatever the data. -/
theorem htmlTemplate_plain (s : GoString) (data : GoMap) (h : PlainText s) :
    htmlTemplate s data = some (.ok s) := by
  unfold htmlTemplate
  have hparse : parseNodes (s.length + 1) 1 s = some (.ok [Node.text s]) := by
    simp only [parseNodes, cutDelim_none 123 s h.1]
  rw [hparse]
  simp [execNodes, h.2]

theorem plainText_placeholder (code : GoString) (h : PlainText code) :
    PlainText (lit "?" ++ code ++ lit "?") := by
  have hq : PlainText (lit "?") := by decide
  constructor
  · intro hm
    rcases List.mem_append.mp hm with hm | hm
    · rcases List.mem_append.mp hm with hm | hm
      · exact hq.1 hm
      · exact h.1 hm
    · exact hq.1 hm
  · intro hm
    rcases List.mem_append.mp hm with hm | hm
    · rcases List.mem_append.mp hm with hm | hm
      · exact hq.2 hm
      · exact h.2 hm
    · exact hq.2 hm

/-- For a missing code the message returned by `fillInParameters` is the
placeholder as soon as the placeholder renders to itself, whether the title
renders or not; the title is the rendered title placeholder or the text of
its render error. -/
theorem fillInParameters_placeholder (env : Env) (title : GoString) (p : GoMap)
    (hmsg : env.parseExecute (lit "?Code not found?") p = .ok (lit "?Code not found?")) :
    fillInParameters env title (lit "?Code not found?") p =
      ((match env.parseExecute title p with
        | .ok t => t
        | .error err => err), lit "?Code not found?") := by
  unfold fillInParameters fillTemplate
  cases env.parseExecute title p with
  | error err => rfl
  | ok t => simp only [hmsg]

/-! ## C1: the placeholder of a missing code -/

set_option maxRecDepth 8000 in
/-- C1 (as stated, refuted): the event `longCodeEvent` has a non-empty code
that is in no table, yet the title handed to storage is not
`"?" + Code + "?"`: the placeholder has 65 bytes and is cut to 64. The event
`actionCodeEvent` has the code `{{x}}`, in no table: its title placeholder
does not render and the title handed to storage is the text of the render
error. -/
theorem C1_counterexample :
    longCodeEvent.Code ≠ [] ∧ exampleEnv.templates.get longCodeEvent.Code = none ∧
    (handleNewEvent exampleEnv longCodeEvent).map
        (fun o => o.stored.map (fun e => e.Title))
      = some [lit "?" ++ lit (String.mk (List.replicate 63 'a'))] ∧
    (handleNewEvent exampleEnv longCodeEvent).map
        (fun o => o.stored.map (fun e => e.Title))
      ≠ some [lit "?" ++ longCodeEvent.Code ++ lit "?"] ∧
    actionCodeEvent.Code ≠ [] ∧ goEnv.templates.get actionCodeEvent.Code = none ∧
    htmlTemplate (lit "?" ++ actionCodeEvent.Code ++ lit "?") actionCodeEvent.Parameters
      = some (.error (lit "template: tmp:1: function \"x\" not defined")) ∧
    (handleNewEvent goEnv actionCodeEvent).map
        (fun o => o.stored.map (fun e => (e.Title, e.Message)))
      = some [(lit "template: tmp:1: function \"x\" not defined",
          lit "?Code not found?")] ∧
    (handleNewEvent goEnv actionCodeEvent).map
        (fun o => o.stored.map (fun e => e.Title))
      ≠ some [lit "?" ++ actionCodeEvent.Code ++ lit "?"] := by
  refine ⟨by decide, by decide, by decide, by decide, by decide, by decide, rfl,
    by decide, by decide⟩

/-- C1 (amended): for an event whose Code is non-empty and absent from the
template table, whatever its own Level and its parameters, `handleNewEvent`
returns and every record it hands to storage has Level ERROR. When the
parameters serialise, the one stored record has Message `"?Code not found?"`,
given only that this fixed text renders to itself, as it does under
html/template; its Title is the first 64 bytes of the rendered
`"?" + Code + "?"`, or of the text of the render error when that render
fails. So the Title is `"?" + Code + "?"` itself when that text renders to
itself, as it does under html/template when Code has neither `{` nor `<`,
and Code has at most 62 bytes. -/
theorem C1_missing_code_placeholder (env : Env) (ev : SentEvent)
    (hcode : ev.Code ≠ []) (habsent : env.templates.get ev.Code = none) :
    (∃ o, handleNewEvent env ev = some o ∧
      ∀ r ∈ o.stored, r.Level = EventLevel.EventLevelError) ∧
    (∀ params,
      env.marshal ev.Parameters = some params →
      env.parseExecute (lit "?Code not found?") ev.Parameters
        = .ok (lit "?Code not found?") →
      handleNewEvent env ev =
        some ⟨env.addEvent
                { Username := ev.Username, EventDate := ev.EventDate,
                  Level := EventLevel.EventLevelError,
                  Title :=
                    (match env.parseExecute (lit "?" ++ ev.Code ++ lit "?")
                        ev.Parameters with
                      | .ok t => t
                      | .error err => err).take 64,
                  Message := lit "?Code not found?", Parameters := params },
              [{ Username := ev.Username, EventDate := ev.EventDate,
                 Level := EventLevel.EventLevelError,
                 Title :=
                   (match env.parseExecute (lit "?" ++ ev.Code ++ lit "?")
                       ev.Parameters with
                     | .ok t => t
                     | .error err => err).take 64,
                 Message := lit "?Code not found?", Parameters := params }]⟩) ∧
    (env.parseExecute (lit "?" ++ ev.Code ++ lit "?") ev.Parameters
        = .ok (lit "?" ++ ev.Code ++ lit "?") →
      ev.Code.length ≤ 62 →
      (match env.parseExecute (lit "?" ++ ev.Code ++ lit "?") ev.Parameters with
        | .ok t => t
        | .error err => err).take 64 = lit "?" ++ ev.Code ++ lit "?") ∧
    (HtmlTemplateEngine env →
      env.parseExecute (lit "?Code not found?") ev.Parameters
        = .ok (lit "?Code not found?") ∧
      (PlainText ev.Code →
        env.parseExecute (lit "?" ++ ev.Code ++ lit "?") ev.Parameters
          = .ok (lit "?" ++ ev.Code ++ lit "?"))) := by
  have hres := resolveFields_code env.templates ev hcode
  rw [getTitleAndMessage_absent env.templates ev.Code habsent] at hres
  refine ⟨?_, ?_, ?_, ?_⟩
  · cases hm : env.marshal ev.Parameters with
    | none =>
      exact ⟨_, handleNewEvent_marshal_none env ev hm, by simp⟩
    | some params =>
      refine ⟨_, handleNewEvent_marshal_some env ev params hm, ?_⟩
      intro r hr
      simp only [List.mem_singleton] at hr
      rw [hr, hres]
  · intro params hm hmsg
    rw [handleNewEvent_marshal_some env ev params hm, hres]
    simp only [fillInParameters_placeholder env _ ev.Parameters hmsg]
    have h512 : (lit "?Code not found?").take 512 = lit "?Code not found?" := by decide
    rw [h512]
  · intro ht hlen
    rw [ht]
    apply List.take_of_length_le
    simp only [List.length_append, lit_question_length]
    omega
  · intro hengine
    constructor
    · exact hengine _ _ _ (htmlTemplate_plain _ _ (by decide))
    · intro hplain
      exact hengine _ _ _ (htmlTemplate_plain _ _ (plainText_placeholder ev.Code hplain))

set_option maxRecDepth 8000 in
/-- Witness of C1 (amended): an event with the unknown code `x.y` under
html/template. -/
theorem C1_missing_code_placeholder_witness :
    handleNewEvent goEnv
        { Username := lit "ann", Level := EventLevel.EventLevelInfo, EventDate := 7,
          Code := lit "x.y", Title := lit "t", Message := lit "m", Parameters := [] }
      = some ⟨true,
          [{ Username := lit "ann", EventDate := 7, Level := EventLevel.EventLevelError,
             Title := lit "?x.y?", Message := lit "?Code not found?",
             Parameters := lit "{}" }]⟩ :=
  ((C1_missing_code_placeholder goEnv
      { Username := lit "ann", Level := EventLevel.EventLevelInfo, EventDate := 7,
        Code := lit "x.y", Title := lit "t", Message := lit "m", Parameters := [] }
      (by decide) (by decide)).2.1 (lit "{}") (by decide) rfl).trans (by decide)

/-! ## C4: events without a code -/

set_option maxRecDepth 8000 in
/-- C4 (as stated, refuted): the event `accentEvent` has an empty Code, a
Title of 33 characters and a Message of one character, both without a
template action and both rendered to themselves by html/template; yet the
Title handed to storage is not the event's Title: it has 66 bytes and is cut
to 64. -/
theorem C4_counterexample :
    accentEvent.Code = [] ∧ accentTitle.length = 33 ∧ accentTitle.length ≤ 64 ∧
    hasAction accentEvent.Title = false ∧ hasAction accentEvent.Message = false ∧
    htmlTemplate accentEvent.Title accentEvent.Parameters
      = some (.ok accentEvent.Title) ∧
    htmlTemplate accentEvent.Message accentEvent.Parameters
      = some (.ok accentEvent.Message) ∧
    accentEvent.Title.length = 66 ∧
    (handleNewEvent goEnv accentEvent).map
        (fun o => o.stored.map (fun e => e.Title))
      = some [accentEvent.Title.take 64] ∧
    (handleNewEvent goEnv accentEvent).map
        (fun o => o.stored.map (fun e => e.Title))
      ≠ some [accentEvent.Title] := by
  refine ⟨rfl, by decide, by decide, by decide, by decide, rfl, rfl, by decide,
    by decide, by decide⟩

/-- C4 (amended): for an event with an empty Code the outcome of
`handleNewEvent` is the same for every content of the template table; when
the parameters serialise, the one record handed to storage carries the
event's own Level and the event's Title and Message after rendering
(`fillInParameters`) and truncation to 64 and 512 bytes; and when Title and
Message render to themselves, as texts with neither `{` nor `<` do under
html/template, and have at most 64 and 512 bytes, they are stored
unchanged. -/
theorem C4_inline_event (env : Env) (ev : SentEvent) (hcode : ev.Code = []) :
    (∀ table : Table,
      handleNewEvent { env with templates := table } ev = handleNewEvent env ev) ∧
    (∀ params, env.marshal ev.Parameters = some params →
      handleNewEvent env ev =
        some ⟨env.addEvent
                { Username := ev.Username, EventDate := ev.EventDate, Level := ev.Level,
                  Title := (fillInParameters env ev.Title ev.Message ev.Parameters).1.take 64,
                  Message :=
                    (fillInParameters env ev.Title ev.Message ev.Parameters).2.take 512,
                  Parameters := params },
              [{ Username := ev.Username, EventDate := ev.EventDate, Level := ev.Level,
                 Title := (fillInParameters env ev.Title ev.Message ev.Parameters).1.take 64,
                 Message :=
                   (fillInParameters env ev.Title ev.Message ev.Parameters).2.take 512,
                 Parameters := params }]⟩) ∧
    (∀ params, env.marshal ev.Parameters = some params →
      env.parseExecute ev.Title ev.Parameters = .ok ev.Title →
      env.parseExecute ev.Message ev.Parameters = .ok ev.Message →
      ev.Title.length ≤ 64 → ev.Message.length ≤ 512 →
      handleNewEvent env ev =
        some ⟨env.addEvent
                { Username := ev.Username, EventDate := ev.EventDate, Level := ev.Level,
                  Title := ev.Title, Message := ev.Message, Parameters := params },
              [{ Username := ev.Username, EventDate := ev.EventDate, Level := ev.Level,
                 Title := ev.Title, Message := ev.Message, Parameters := params }]⟩) ∧
    (HtmlTemplateEngine env → PlainText ev.Title → PlainText ev.Message →
      env.parseExecute ev.Title ev.Parameters = .ok ev.Title ∧
      env.parseExecute ev.Message ev.Parameters = .ok ev.Message) := by
  refine ⟨?_, ?_, ?_, ?_⟩
  · intro table
    simp [handleNewEvent, fillInParameters, fillTemplate, resolveFields, hcode]
  · intro params hm
    rw [handleNewEvent_marshal_some env ev params hm,
      resolveFields_inline env.templates ev hcode]
  · intro params hm ht hmsg hlt hlm
    rw [handleNewEvent_marshal_some env ev params hm,
      resolveFields_inline env.templates ev hcode]
    simp only [fillInParameters_ok env _ _ _ _ ev.Parameters ht hmsg,
      List.take_of_length_le hlt, List.take_of_length_le hlm]
  · intro hengine ht hm
    exact ⟨hengine _ _ _ (htmlTemplate_plain _ _ ht),
      hengine _ _ _ (htmlTemplate_plain _ _ hm)⟩

set_option maxRecDepth 8000 in
/-- Witness of C4 (amended): under html/template the event Title `"Hi"`,
Message `"There"`, Level INFO and no Code is stored with these three fields
unchanged. -/
theorem C4_inline_event_witness :
    inlineEvent.Code = [] ∧
    handleNewEvent goEnv inlineEvent =
      some ⟨true,
        [{ Username := lit "ann", EventDate := 0, Level := EventLevel.EventLevelInfo,
           Title := lit "Hi", Message := lit "There", Parameters := lit "{}" }]⟩ :=
  ⟨rfl, ((C4_inline_event goEnv inlineEvent rfl).2.2.1 (lit "{}") (by decide)
    ((C4_inline_event goEnv inlineEvent rfl).2.2.2 goEnv_engine (by decide) (by decide)).1
    ((C4_inline_event goEnv inlineEvent rfl).2.2.2 goEnv_engine (by decide) (by decide)).2
    (by decide) (by decide)).trans (by decide)⟩

end EventStore
